import Mathlib

/-!
Verification development for the Racing repository (src/racing.js and its
glMatrix-based helper file).

Modelling conventions, used throughout and referenced from the doc comments
below:

* JavaScript numbers are modelled as rationals (`ℚ`).  All numeric literals of
  the source are exactly representable, and every claim below is about exact
  comparisons/arithmetic, not float rounding.
* `vec3.distance` (glMatrix) takes exactly two arguments `a b` and returns the
  Euclidean norm of `b - a`.  Several call sites of racing.js pass a third
  argument, which JavaScript silently ignores; the embedding reproduces the
  two-argument semantics at each call site exactly as JavaScript executes it.
  Distance *comparisons* (`<`, `>`, `===` against thresholds) are modelled by
  the same comparisons on squared distances, which is equivalent because the
  square root is strictly monotone on nonnegative reals.
* Trigonometry: the source computes `Math.cos(deg2rad θ)` / `Math.sin(deg2rad θ)`
  at various degree values θ, and `vec3.angle` (returning radians, converted by
  `rad2deg`).  These transcendental functions are passed to the embedding as
  explicit function parameters `cosd sind : ℚ → ℚ` (cosine/sine at an angle
  given in degrees) and `angDeg : Vec3Q → Vec3Q → ℚ` (the vec3.angle of two
  vectors, converted to degrees).  Theorems quantify over these parameters, so
  they hold in particular for the true cosine/sine/angle; concrete evaluations
  instantiate them with functions that agree with the true ones at every angle
  actually reached by the trace in question (each such instantiation documents
  this agreement).
* `Float32Array.subarray(s, s+3)` past either end of `curve_verts` yields a
  shorter (possibly empty) array; reading its missing entries gives
  `undefined`, and every arithmetic use of those entries produces `NaN`.  Any
  comparison with `NaN` is false in JavaScript.  The embedding models a curve
  point whose read is not fully in range as `none : Option Vec3Q`, and models
  the NaN comparison semantics by `Option`-aware comparison functions that
  return `false` whenever a `NaN` (`none`) operand is involved, exactly as the
  JavaScript comparisons do.  Likewise a projection whose direction vector is
  zero divides 0 by 0 (NaN) and is modelled as `none`.
-/

namespace Racing

/-- Vehicle/track 3-vector with rational coordinates (a glMatrix `vec3`). -/
structure Vec3Q where
  x : ℚ
  y : ℚ
  z : ℚ
deriving DecidableEq, Repr

/-- The zero vector, `vec3.create()`. -/
def v3zero : Vec3Q := ⟨0, 0, 0⟩

/-- glMatrix `vec3.add`. -/
def v3add (a b : Vec3Q) : Vec3Q := ⟨a.x + b.x, a.y + b.y, a.z + b.z⟩

/-- glMatrix `vec3.subtract`. -/
def v3sub (a b : Vec3Q) : Vec3Q := ⟨a.x - b.x, a.y - b.y, a.z - b.z⟩

/-- glMatrix `vec3.dot`. -/
def v3dot (a b : Vec3Q) : ℚ := a.x * b.x + a.y * b.y + a.z * b.z

/-- glMatrix `vec3.scaleAndAdd out a b s = a + b * s`. -/
def v3scaleAndAdd (a b : Vec3Q) (s : ℚ) : Vec3Q :=
  ⟨a.x + b.x * s, a.y + b.y * s, a.z + b.z * s⟩

/-- Squared Euclidean distance between two points.  `vec3.distance a b`
equals the square root of this, and every comparison of distances in the
source is equivalent to the same comparison of the squares. -/
def distSq (a b : Vec3Q) : ℚ :=
  (b.x - a.x) ^ 2 + (b.y - a.y) ^ 2 + (b.z - a.z) ^ 2

/-- glMatrix `vec3.rotateX out a b rad`: rotate `a` around `b` about the X
axis; `c`/`s` stand for the cosine and sine of `rad`. -/
def rotX (a b : Vec3Q) (c s : ℚ) : Vec3Q :=
  let p := v3sub a b
  let r : Vec3Q := ⟨p.x, p.y * c - p.z * s, p.y * s + p.z * c⟩
  v3add r b

/-- glMatrix `vec3.rotateY out a b rad` with `c`/`s` the cosine and sine of
`rad`. -/
def rotY (a b : Vec3Q) (c s : ℚ) : Vec3Q :=
  let p := v3sub a b
  let r : Vec3Q := ⟨p.z * s + p.x * c, p.y, p.z * c - p.x * s⟩
  v3add r b

/-- glMatrix `vec3.rotateZ out a b rad` with `c`/`s` the cosine and sine of
`rad`. -/
def rotZ (a b : Vec3Q) (c s : ℚ) : Vec3Q :=
  let p := v3sub a b
  let r : Vec3Q := ⟨p.x * c - p.y * s, p.x * s + p.y * c, p.z⟩
  v3add r b

/-! Physics constants of racing.js (lines 30-33) and fixed positions. -/

/-- `const maxPower = 0.01`. -/
def maxPower : ℚ := 1/100

/-- `const maxReverse = -0.002`. -/
def maxReverse : ℚ := -1/500

/-- `const powerFactor = 0.00001`. -/
def powerFactor : ℚ := 1/100000

/-- `const reverseFactor = -0.000005`. -/
def reverseFactor : ℚ := -1/200000

/-- `let carPosition = [.01, -.08, -.155]` — never reassigned. -/
def carPosition : Vec3Q := ⟨1/100, -8/100, -155/1000⟩

/-- JavaScript `Math.round`: round half toward positive infinity. -/
def jsRound (x : ℚ) : ℤ := ⌊x + 1/2⌋

/-- racing.js `round(value, factor)`: round `value + factor` to the nearest
millionth (`Math.round(1000000*(value+factor)) / 1000000`). -/
def round (value factor : ℚ) : ℚ :=
  (jsRound (1000000 * (value + factor)) : ℚ) / 1000000

/-- One logical control: `{pressed: bool, value: number}`. -/
structure Ctrl where
  pressed : Bool
  value : ℚ
deriving DecidableEq, Repr

/-- Direction a turn key can record in `turningWhileIdle.direction`. -/
inductive TurnDir where
  | leftD
  | rightD
deriving DecidableEq, Repr

/-- The mutable session state of racing.js that the claims touch: the four
logical controls (`controls[forward]`, `controls[backward]`, `controls[left]`,
`controls[right]` — physical key bindings are a bijection fixed at session
start, so the handlers are modelled over the logical directions), the game
state flags, the rotation/position data of the track/vehicle, the loaded
curve vertices and car bounding box, and the timer variables.
`keydownAttached` records whether the `keydown` listener is attached (it is
removed by `crash()`/winning/pausing and re-added on recovery/unpausing). -/
structure GameState where
  fwd : Ctrl
  bwd : Ctrl
  lft : Ctrl
  rgt : Ctrl
  atTitleScreen : Bool
  inHelpMenu : Bool
  hasStarted : Bool
  isPaused : Bool
  isIdle : Bool
  hasCrashed : Bool
  hasWon : Bool
  hasReachedCheckpoint : Bool
  turningIsTurning : Bool
  turningDirection : Option TurnDir
  keydownAttached : Bool
  rotation0 : ℚ
  rotation1 : ℚ
  rotation2 : ℚ
  previousXRotation : ℚ
  previousYRotation : ℚ
  trackPosition : Vec3Q
  curveVerts : List ℚ
  boxMinX : ℚ
  boxMaxX : ℚ
  boxMinZ : ℚ
  boxMaxZ : ℚ
  gameStartTime : ℚ
  gamePausedTime : ℚ
  gameCurrTime : ℚ
deriving DecidableEq, Repr

/-- Forward-control block of racing.js `accelerate()` (lines 487-491): while
the forward key is pressed ramp the value toward `maxPower`, otherwise ramp
it back toward 0; `forwardVel` is the value read at the top of
`accelerate()`. -/
def accelerateForwardPart (forwardVel : ℚ) (st : GameState) : GameState :=
  if st.fwd.pressed then
    if forwardVel < maxPower then
      { st with fwd := { st.fwd with value := round forwardVel powerFactor } }
    else st
  else
    if forwardVel > 0 then
      { st with fwd := { st.fwd with value := round forwardVel (-powerFactor) } }
    else st

/-- Backward-control block of racing.js `accelerate()` (lines 493-498):
while the backward key is pressed ramp the value toward `maxReverse`, using
the 5x-steeper recovery step when `hasCrashed`; otherwise ramp it back
toward 0. -/
def accelerateBackwardPart (backwardVel : ℚ) (st : GameState) : GameState :=
  if st.bwd.pressed then
    if st.hasCrashed then
      { st with bwd := { st.bwd with value := round backwardVel (-reverseFactor * 5) } }
    else if backwardVel > maxReverse then
      { st with bwd := { st.bwd with value := round backwardVel reverseFactor } }
    else st
  else
    if backwardVel < 0 then
      { st with bwd := { st.bwd with value := round backwardVel (-reverseFactor) } }
    else st

/-- racing.js `accelerate()` (lines 483-501): read both velocities, then —
only when not paused — run the forward block and the backward block on them;
finally set `isIdle` when both values are 0 (line 500). -/
def accelerate (st : GameState) : GameState :=
  let forwardVel := st.fwd.value
  let backwardVel := st.bwd.value
  let st :=
    if !st.isPaused then
      accelerateBackwardPart backwardVel (accelerateForwardPart forwardVel st)
    else st
  if st.fwd.value = 0 && st.bwd.value = 0 then { st with isIdle := true } else st

/-- racing.js `crash()` (lines 713-718): set the crash flag, force the
backward control to `maxReverse` with its pressed flag on, and remove the
`keydown` listener (locking keyboard input). -/
def crash (st : GameState) : GameState :=
  { st with hasCrashed := true
            bwd := { pressed := true, value := maxReverse }
            keydownAttached := false }

/-- racing.js `calculateElapsedTime()` (lines 568-572), as a function of the
current wall-clock time `currTime` (a `new Date()` value in milliseconds):
while paused, `gamePausedTime` is recomputed as `currTime - gameCurrTime`;
then, unless the game is won, `gameCurrTime` becomes
`currTime - gamePausedTime`.  Returns the updated state. -/
def calculateElapsedTime (currTime : ℚ) (st : GameState) : GameState :=
  let st :=
    if st.isPaused then { st with gamePausedTime := currTime - st.gameCurrTime } else st
  if !st.hasWon then { st with gameCurrTime := currTime - st.gamePausedTime } else st

/-! The track-follower / collision corrector (racing.js lines 816-953). -/

/-- Squared distance from `a` to a possibly-NaN point (see the module
conventions: a `none` operand models a NaN vector). -/
def distSqOpt (a : Vec3Q) (b : Option Vec3Q) : Option ℚ := b.map (distSq a)

/-- JavaScript `<` on possibly-NaN numbers: false whenever an operand is NaN. -/
def ltOpt : Option ℚ → Option ℚ → Bool
  | some a, some b => a < b
  | _, _ => false

/-- JavaScript `>` against a plain threshold: false when the left side is NaN. -/
def gtOpt : Option ℚ → ℚ → Bool
  | some a, b => a > b
  | none, _ => false

/-- JavaScript `point[0] > 0` where `point` may be a NaN vector. -/
def xPos : Option Vec3Q → Bool
  | some p => p.x > 0
  | none => false

/-- `getClosestCurvePointOnTrack(vertexOnTrack, closestVertex, carPosition)`
from the helper file: scalar projection of `carPosition` onto the infinite
line through `closestVertex` with direction `vertexOnTrack - closestVertex`.
When the direction vector is zero the source divides 0 by 0 (NaN), modelled
as `none`. -/
def getClosestCurvePointOnTrack (vertexOnTrack closestVertex carPos : Vec3Q) : Option Vec3Q :=
  let V := v3sub vertexOnTrack closestVertex
  let denom := V.x ^ 2 + V.y ^ 2 + V.z ^ 2
  if denom = 0 then none
  else
    let t := (-V.x * closestVertex.x + V.x * carPos.x
              - V.y * closestVertex.y + V.y * carPos.y
              - V.z * closestVertex.z + V.z * carPos.z) / denom
    some (v3scaleAndAdd closestVertex V t)

/-- Projection lifted to possibly-NaN inputs (a NaN coordinate propagates to
the result in the source). -/
def getClosestCurvePointOnTrackO (vO cO : Option Vec3Q) (carPos : Vec3Q) : Option Vec3Q :=
  match vO, cO with
  | some v, some c => getClosestCurvePointOnTrack v c carPos
  | _, _ => none

set_option linter.unusedVariables false in
/-- World-space transform a curve point undergoes inside racing.js
`getCurvePoint` (lines 836-841).  The source writes

`let rotatedCurvePoint = vec3.rotateX(vec3.create(), curve_point, [0,0,0], deg2rad(rotation[0]));`
`vec3.rotateY(rotatedCurvePoint, curve_point, [0,0,0], deg2rad(rotation[1]));`
`vec3.rotateZ(rotatedCurvePoint, curve_point, [0,0,0], deg2rad(rotation[2]));`

— the rotateY and rotateZ calls take the *untransformed* `curve_point` as
their input argument, so each call overwrites the previous result and only
the Z rotation survives; the shadowing `let`s below mirror this exactly.
Then the fixed 85-degree Y rotation is applied to the accumulated value and
the result is translated by `[trackPosition[0], trackPosition[1],
trackPosition[2] + carPosition[2]]`. -/
def curveTransform (cosd sind : ℚ → ℚ) (st : GameState) (p : Vec3Q) : Vec3Q :=
  let rotatedCurvePoint := rotX p v3zero (cosd st.rotation0) (sind st.rotation0)
  let rotatedCurvePoint := rotY p v3zero (cosd st.rotation1) (sind st.rotation1)
  let rotatedCurvePoint := rotZ p v3zero (cosd st.rotation2) (sind st.rotation2)
  let rotatedCurvePoint := rotY rotatedCurvePoint v3zero (cosd 85) (sind 85)
  v3add rotatedCurvePoint
    ⟨st.trackPosition.x, st.trackPosition.y, st.trackPosition.z + carPosition.z⟩

/-- racing.js `getCurvePoint(start_index)` (lines 833-844): read three floats
of `curve_verts` starting at `start_index` (an out-of-range read yields a
NaN point, modelled as `none`; see the module conventions), apply
`curveTransform`, and return the point with the start index, as the source's
`[rotatedCurvePoint, start_index]`. -/
def getCurvePoint (cosd sind : ℚ → ℚ) (st : GameState) (s : ℤ) : Option Vec3Q × ℤ :=
  if 0 ≤ s ∧ s + 3 ≤ (st.curveVerts.length : ℤ) then
    (some (curveTransform cosd sind st
        ⟨st.curveVerts.getD s.toNat 0, st.curveVerts.getD (s.toNat + 1) 0,
         st.curveVerts.getD (s.toNat + 2) 0⟩), s)
  else (none, s)

/-- racing.js `determinePointByDistance(beforePoint, afterPoint)` (lines
847-852).  The source computes

`let pointBeforeDistance = vec3.distance(vec3.create(), carPosition, beforePoint);`
`let pointAfterDistance = vec3.distance(vec3.create(), carPosition, afterPoint);`

but glMatrix `vec3.distance(a, b)` takes exactly two arguments, so each call
measures the distance from the origin (`vec3.create()`) to `carPosition` and
the candidate point passed third is ignored.  The comparison below therefore
compares that constant with itself.  (Squared distances; see conventions.) -/
def determinePointByDistance (beforePoint afterPoint : Option Vec3Q) : Option Vec3Q :=
  let pointBeforeDistance := distSq v3zero carPosition
  let pointAfterDistance := distSq v3zero carPosition
  if pointAfterDistance < pointBeforeDistance then afterPoint else beforePoint

/-- Running minimum of the nearest-sample search: the source's
`shortestDistance = {vertex, distance, index}` object. -/
structure SearchBest where
  vertex : Option Vec3Q
  dist : Option ℚ
  index : ℤ
deriving DecidableEq, Repr

/-- The `for (let j = 3; i < track.curve_verts.length; j += 3)` loop of
`getClosestPointOnCurve` (lines 873-881): each iteration reads the curve
point at `j` (updating `i` to the returned start index), keeps it if its
distance to `carPosition` is strictly smaller than the running minimum, and
continues while `i` is below the array length.  `fuel` bounds the recursion;
the top-level caller supplies more fuel than the loop can consume, so the
fuel guard is never the reason the loop stops.  The list accumulates the
start index of every `getCurvePoint` call the loop makes (instrumentation
used by the safety claim about in-range reads). -/
def searchLoop (cosd sind : ℚ → ℚ) (st : GameState) :
    ℕ → ℤ → ℤ → SearchBest → List ℤ → SearchBest × List ℤ
  | 0, _, _, best, calls => (best, calls)
  | fuel + 1, i, j, best, calls =>
    if i < (st.curveVerts.length : ℤ) then
      let cp := getCurvePoint cosd sind st j
      let d := distSqOpt carPosition cp.1
      let best' := if ltOpt d best.dist then ⟨cp.1, d, cp.2⟩ else best
      searchLoop cosd sind st fuel cp.2 (j + 3) best' (calls ++ [j])
    else (best, calls)

/-- racing.js `getClosestPointOnCurve()` (lines 866-883): start from the
curve point at index 0 and scan the rest with `searchLoop`.  Returns the
running minimum together with the instrumented list of all `getCurvePoint`
start indices the search used (the initial `0` plus one per iteration). -/
def getClosestPointOnCurve (cosd sind : ℚ → ℚ) (st : GameState) : SearchBest × List ℤ :=
  let cp := getCurvePoint cosd sind st 0
  let d := distSqOpt carPosition cp.1
  searchLoop cosd sind st (st.curveVerts.length + 1) cp.2 3 ⟨cp.1, d, cp.2⟩ [0]

/-- racing.js `getDirection()` (lines 816-822): `dirForward` is set when the
accumulated yaw lies strictly inside one of the buckets `(90*i, 90*(i+1))`
for `i = 0, 3, 6, 9`. -/
def getDirection (rot1 : ℚ) : Bool :=
  ([0, 3, 6, 9] : List ℚ).foldl
    (fun dirForward i => if rot1 > 90 * i ∧ rot1 < 90 * (i + 1) then true else dirForward)
    false

/-- racing.js `collide(point, directionVector, topLeft, topRight)` (lines
923-953): heading- and side-dependent threshold tests (squared thresholds
`0.2^2 = 1/25` and `0.1^2 = 1/100`; see conventions) that trigger `crash()`
and nudge the lateral displacement (`0.05` in three branches, `0.50` in the
fourth); finally the previous rotations are updated to the current ones. -/
def collide (st : GameState) (point : Option Vec3Q) (dv : Vec3Q)
    (topLeft topRight : Option ℚ) : Vec3Q × GameState :=
  let dirForward := getDirection st.rotation1
  let r :=
    if dirForward then
      if xPos point then
        if gtOpt topLeft (1/25) then ({ dv with x := dv.x - 1/20 }, crash st) else (dv, st)
      else
        if gtOpt topRight (1/100) then ({ dv with x := dv.x + 1/20 }, crash st) else (dv, st)
    else
      if xPos point then
        if gtOpt topRight (1/100) then ({ dv with x := dv.x - 1/20 }, crash st) else (dv, st)
      else
        if gtOpt topLeft (1/25) then ({ dv with x := dv.x + 1/2 }, crash st) else (dv, st)
  (r.1, { r.2 with previousXRotation := r.2.rotation0, previousYRotation := r.2.rotation1 })

/-- racing.js `stayOnTrack(directionVector)` (lines 830-918): nearest-sample
search, neighbour resolution with cyclic wrap (note the `k < 0` branch of the
source overwrites `vertex` with the *last* sample), projections onto the two
adjacent segment lines, the elevation correction and banking-angle update of
`getRotationAngleAndTranslate` (line 857 and 904-905), rotation of the chosen
point by the negated rotation deltas, and the bounding-corner collision test.
When the chosen point or neighbour vertex is NaN (`none`), the source would
set `directionVector[1]` and `rotation[0]` to NaN; the embedding leaves them
unchanged in that case (see conventions — no theorem below depends on those
components in the degenerate case), while the collision comparisons are
faithfully false on NaN distances.  Returns the corrected direction vector
and the updated state. -/
def stayOnTrack (cosd sind : ℚ → ℚ) (angDeg : Vec3Q → Vec3Q → ℚ)
    (st : GameState) (dv : Vec3Q) : Vec3Q × GameState :=
  let len : ℤ := st.curveVerts.length
  let shortest := (getClosestPointOnCurve cosd sind st).1
  let vj := getCurvePoint cosd sind st (shortest.index + 3)
  let bk := getCurvePoint cosd sind st (shortest.index - 3)
  let pointAfter := getClosestCurvePointOnTrackO vj.1 shortest.vertex carPosition
  let pointBefore := getClosestCurvePointOnTrackO bk.1 shortest.vertex carPosition
  let vpp :=
    if vj.2 ≥ len then
      let v0 := getCurvePoint cosd sind st 0
      (v0.1, getClosestCurvePointOnTrackO v0.1 shortest.vertex carPosition, pointBefore)
    else if bk.2 < 0 then
      let vlast := getCurvePoint cosd sind st (len - 3)
      (vlast.1, pointAfter, getClosestCurvePointOnTrackO vlast.1 shortest.vertex carPosition)
    else
      (vj.1, pointAfter, pointBefore)
  let vertex := vpp.1
  let point := determinePointByDistance vpp.2.2 vpp.2.1
  let dvst :=
    match point, vertex with
    | some p, some v =>
      let dv := { dv with y := dv.y + (carPosition.y - p.y) }
      let angle := angDeg (v3sub ⟨p.x, p.y + 1/10, p.z⟩ p) (v3sub v p)
      (dv, { st with rotation0 := -(90 - angle) })
    | _, _ => (dv, st)
  let dv := dvst.1
  let stA := dvst.2
  let point :=
    point.map (fun p =>
      let p := rotX p v3zero (cosd (-(stA.rotation0 - stA.previousXRotation)))
                             (sind (-(stA.rotation0 - stA.previousXRotation)))
      rotY p v3zero (cosd (-(stA.rotation1 - stA.previousYRotation)))
                    (sind (-(stA.rotation1 - stA.previousYRotation))))
  let topLeftDist := distSqOpt ⟨stA.boxMinX, carPosition.y, stA.boxMinZ⟩ point
  let topRightDist := distSqOpt ⟨stA.boxMaxX, carPosition.y, stA.boxMinZ⟩ point
  collide stA point dv topLeftDist topRightDist

/-- racing.js `checkReachedCheckpoint()` (lines 579-581): the source calls
`vec3.distance(vec3.create(), trackPosition, carPosition)`, i.e. the
distance from the origin to `trackPosition` (the third argument is ignored
by the two-argument glMatrix function); the flag is set when it exceeds 3.5
(squared: `49/4`). -/
def checkReachedCheckpoint (st : GameState) : GameState :=
  if distSq v3zero st.trackPosition > 49/4 then { st with hasReachedCheckpoint := true } else st

/-- racing.js `checkReachedFinish()` (lines 589-595): same distance as
`checkReachedCheckpoint`; when it drops under 0.3 (squared: `9/100`) the
`keydown` listener is removed and `hasWon` is set. -/
def checkReachedFinish (st : GameState) : GameState :=
  if distSq v3zero st.trackPosition < 9/100 then
    { st with hasWon := true, keydownAttached := false }
  else st

/-- Movement block of `updatePosition` (lines 733-755): when not paused,
either accumulate the forward/backward values into the displacement's z
component and apply the pressed turn values to the yaw (the un-crashed case),
or — in the crashed case — clear the crash state, the backward pressed flag
and re-attach the `keydown` listener once the backward value has decayed to
exactly 0, and otherwise keep applying the backward value. -/
def movementPhase (st : GameState) (dv : Vec3Q) : Vec3Q × GameState :=
  if !st.isPaused then
    if !st.hasCrashed then
      let dv := { dv with z := dv.z + st.fwd.value + st.bwd.value }
      let st := if st.rgt.pressed then { st with rotation1 := st.rotation1 + st.rgt.value } else st
      let st := if st.lft.pressed then { st with rotation1 := st.rotation1 + st.lft.value } else st
      (dv, st)
    else
      if st.bwd.value = 0 then
        (dv, { st with hasCrashed := false, bwd := { st.bwd with pressed := false },
                       keydownAttached := true })
      else
        ({ dv with z := dv.z + st.bwd.value }, st)
  else (dv, st)

/-- racing.js `updatePosition()` (lines 725-777), one frame of the update
loop: progress-flag checks (checkpoint before the flag is set, finish
afterwards), `accelerate`, the movement block, rotation of the displacement
into world space by the negated accumulated rotation (lines 759-761, whose
cosines/sines at the negated degree angles are `cosd (-θ)` / `sind (-θ)`),
the `stayOnTrack` correction and the final `trackPosition` update.  The
projection/model-view matrix updates of the source only feed the renderer
and carry no session state. -/
def updatePosition (cosd sind : ℚ → ℚ) (angDeg : Vec3Q → Vec3Q → ℚ)
    (st : GameState) : GameState :=
  let dv : Vec3Q := v3zero
  let st := if !st.hasReachedCheckpoint then checkReachedCheckpoint st else checkReachedFinish st
  let st := accelerate st
  let dvst := movementPhase st dv
  let dv := rotX dvst.1 v3zero (cosd (-dvst.2.rotation0)) (sind (-dvst.2.rotation0))
  let dv := rotY dv v3zero (cosd (-dvst.2.rotation1)) (sind (-dvst.2.rotation1))
  let dv := rotZ dv v3zero (cosd (-dvst.2.rotation2)) (sind (-dvst.2.rotation2))
  let vst := stayOnTrack cosd sind angDeg dvst.2 dv
  { vst.2 with trackPosition := v3add vst.2.trackPosition vst.1 }

/-! Input handlers (racing.js lines 433-478 and 535-546).  Key bindings are a
fixed bijection between physical keys and the four logical directions, so the
handlers are modelled over logical keys. -/

/-- Logical game key (the physical key bound to it at session start). -/
inductive GKey where
  | forwardK
  | backwardK
  | leftK
  | rightK
deriving DecidableEq, Repr

/-- Key delivered to `onKeyUp`: the pause key, a bound game key, the three
mode-selection keys, the help keys, or any other key. -/
inductive UKey where
  | pKey
  | game (k : GKey)
  | k1
  | k2
  | k3
  | hKey
  | bKey
  | otherKey
deriving DecidableEq, Repr

/-- The control record bound to a logical key. -/
def ctrlOf (st : GameState) : GKey → Ctrl
  | .forwardK => st.fwd
  | .backwardK => st.bwd
  | .leftK => st.lft
  | .rightK => st.rgt

/-- Replace the control record bound to a logical key. -/
def setCtrl (st : GameState) : GKey → Ctrl → GameState
  | .forwardK, c => { st with fwd := c }
  | .backwardK, c => { st with bwd := c }
  | .leftK, c => { st with lft := c }
  | .rightK, c => { st with rgt := c }

/-- Set the pressed flag of the control recorded as the deferred turn. -/
def setTurnPressed (st : GameState) : TurnDir → Bool → GameState
  | .leftD, b => { st with lft := { st.lft with pressed := b } }
  | .rightD, b => { st with rgt := { st.rgt with pressed := b } }

/-- racing.js `onKeyDown(e)` (lines 433-451): ignore keys before the game has
started; start the timer on the first accepted input; defer a turn key
pressed while idle into `turningWhileIdle` instead of marking it pressed;
otherwise mark the key pressed, clear `isIdle`, and when a motion key is
pressed while a deferred turn exists also mark the deferred direction
pressed. -/
def onKeyDown (currTime : ℚ) (k : GKey) (st : GameState) : GameState :=
  if !st.hasStarted then st
  else
    let st := if st.gameStartTime = 0 then { st with gameStartTime := currTime } else st
    if (k = .rightK ∨ k = .leftK) ∧ st.isIdle then
      let st := setCtrl st k { ctrlOf st k with pressed := false }
      { st with turningIsTurning := true,
                turningDirection := some (if k = .rightK then TurnDir.rightD else TurnDir.leftD) }
    else
      let st := setCtrl st k { ctrlOf st k with pressed := true }
      let st := { st with isIdle := false }
      if (k = .forwardK ∨ k = .backwardK) ∧ st.turningIsTurning then
        match st.turningDirection with
        | some d => setTurnPressed st d true
        | none => st
      else st

/-- racing.js `setControls()` (lines 363-370): reset the four logical
controls to their initial pressed/value records. -/
def setControls (st : GameState) : GameState :=
  { st with fwd := { pressed := false, value := 0 },
            rgt := { pressed := false, value := -1/2 },
            bwd := { pressed := false, value := 0 },
            lft := { pressed := false, value := 1/2 } }

/-- racing.js `initializeGame()` (lines 376-380): set the controls and mark
the session started (`startPlaying`; menu removal and audio are out of
scope). -/
def initializeGame (st : GameState) : GameState :=
  { setControls st with hasStarted := true }

/-- racing.js `pause()` (lines 535-546): unpausing re-attaches the `keydown`
listener and clears the flag; pausing removes the listener, clears every
pressed flag and sets the flag. -/
def pause (st : GameState) : GameState :=
  if st.isPaused then { st with keydownAttached := true, isPaused := false }
  else
    { st with keydownAttached := false, isPaused := true,
              fwd := { st.fwd with pressed := false },
              bwd := { st.bwd with pressed := false },
              lft := { st.lft with pressed := false },
              rgt := { st.rgt with pressed := false } }

/-- racing.js `onKeyUp(e)` (lines 457-478): on the title screen any key
selects the mode menu; before the game starts the mode/help keys act; in the
game the pause key toggles `pause()` and releasing a bound key clears its
pressed flag, clears a deferred turn's pressed flag when its motion key is
released, and forgets the deferred turn when its own key is released. -/
def onKeyUp (k : UKey) (st : GameState) : GameState :=
  if st.atTitleScreen then { st with atTitleScreen := false }
  else if !st.hasStarted then
    match k with
    | .k1 => initializeGame st
    | .k2 => initializeGame st
    | .k3 => initializeGame st
    | .hKey => if !st.inHelpMenu then { st with inHelpMenu := true } else st
    | .bKey => if st.inHelpMenu then { st with inHelpMenu := false } else st
    | _ => st
  else
    match k with
    | .pKey => pause st
    | .game gk =>
      let st := setCtrl st gk { ctrlOf st gk with pressed := false }
      let st :=
        if (gk = .forwardK ∨ gk = .backwardK) ∧ st.turningIsTurning then
          match st.turningDirection with
          | some d => setTurnPressed st d false
          | none => st
        else st
      match gk, st.turningDirection with
      | .leftK, some TurnDir.leftD => { st with turningIsTurning := false }
      | .rightK, some TurnDir.rightD => { st with turningIsTurning := false }
      | _, _ => st
    | _ => st

/-! Shared concrete session data used by witnesses and counterexamples. -/

/-- A concrete in-game session state: game started, unpaused, idle, no flags
set, initial rotations and `trackPosition = [0, -0.15, -0.25]` as at load
time, a car box of realistic (scaled) extents, and an empty curve. -/
def baseState : GameState :=
  { fwd := ⟨false, 0⟩
    bwd := ⟨false, 0⟩
    lft := ⟨false, 1/2⟩
    rgt := ⟨false, -1/2⟩
    atTitleScreen := false
    inHelpMenu := false
    hasStarted := true
    isPaused := false
    isIdle := true
    hasCrashed := false
    hasWon := false
    hasReachedCheckpoint := false
    turningIsTurning := false
    turningDirection := none
    keydownAttached := true
    rotation0 := 0
    rotation1 := 0
    rotation2 := 0
    previousXRotation := 0
    previousYRotation := 0
    trackPosition := ⟨0, -15/100, -25/100⟩
    curveVerts := []
    boxMinX := -2/100
    boxMaxX := 2/100
    boxMinZ := -19/100
    boxMaxZ := -12/100
    gameStartTime := 0
    gamePausedTime := 0
    gameCurrTime := 0 }

/-- Session state with the forward key held from a standing start. -/
def forwardHeld : GameState := { baseState with fwd := ⟨true, 0⟩, isIdle := false }

/-- Session state at the cap, just after the forward key is released: 1000
held ticks bring the value to `maxPower`, then the key-up handler fires. -/
def forwardReleased : GameState := onKeyUp (.game .forwardK) (accelerate^[1000] forwardHeld)

/-- One crash-recovery frame fragment: `accelerate()` followed by the
crashed branch of `updatePosition` (lines 732 and 747-754), exactly the code
the crash-lifecycle claim cites.  The rest of the frame (`stayOnTrack`)
touches the backward control, the crash flag and the listener only through
`collide`/`crash()`, which the claim's "no further collision" premise
excludes. -/
def recoveryTick (st : GameState) : GameState := (movementPhase (accelerate st) v3zero).2

/-- Degree-domain cosine used in the concrete traces below.  It agrees with
the true cosine at every angle those traces evaluate it on: the traces only
reach the angles 0 and 90 (where `cos 0 = 1`, `cos 90 = 0`), except for the
fixed 85-degree yaw of `getCurvePoint`, whose cosine/sine are multiplied by
the x/z coordinates of curve samples chosen on the Y axis — `rotY` fixes the
Y axis pointwise whatever the angle — so any value may stand at 85. -/
def cosdX : ℚ → ℚ := fun θ => if θ = 0 then 1 else 0

/-- Degree-domain sine for the concrete traces; same agreement argument as
`cosdX` (`sin 0 = 0`, `sin 90 = 1`; the 85-degree value is cancelled). -/
def sindX : ℚ → ℚ := fun θ => if θ = 90 then 1 else 0

/-- Degree-domain `vec3.angle` for the concrete traces: in those traces the
two vectors handed to it — the vertical probe `(0, 0.1, 0)` and
`vertex - point = (0, 1.08, 0)` — are positively parallel, where the true
angle is exactly 0. -/
def angX : Vec3Q → Vec3Q → ℚ := fun _ _ => 0

/-- Session state for the frame-step traces: rotations zero, previous pitch
already at the banking value -90 the track-follower recomputes (so the
rotation deltas of the collision test are 0 and their cosine/sine are taken
at 0), track at the origin, and a two-sample curve `(0,0,0), (0,1,0)` lying
on the Y axis. -/
def steerState : GameState :=
  { baseState with
      previousXRotation := -90
      trackPosition := ⟨0, 0, 0⟩
      curveVerts := [0, 0, 0, 0, 1, 0] }

/-- Mid-recovery crashed state: one recovery tick left on the backward
value. -/
def c5CrashState : GameState :=
  { steerState with hasCrashed := true, bwd := ⟨true, -1/40000⟩, keydownAttached := false }

/-- Paused session state with `steerState`'s geometry. -/
def c4PausedState : GameState := { steerState with isPaused := true }

/-- World-space transform of polyline sample `m` (three consecutive floats
of `curve_verts` starting at `3*m`), as `getCurvePoint` computes it. -/
def samplePoint (cosd sind : ℚ → ℚ) (st : GameState) (m : ℕ) : Vec3Q :=
  curveTransform cosd sind st
    ⟨st.curveVerts.getD (3 * m) 0, st.curveVerts.getD (3 * m + 1) 0,
     st.curveVerts.getD (3 * m + 2) 0⟩

/-- Squared distance from the vehicle to transformed sample `m`. -/
def sampleD (cosd sind : ℚ → ℚ) (st : GameState) (m : ℕ) : ℚ :=
  distSq carPosition (samplePoint cosd sind st m)

/-- The running minimum `best` is the first-encountered minimum of the
transformed samples `0, …, t-1` (clipped to the `n` real samples): its index
and vertex belong to a real sample `m` whose distance is no larger than any
scanned sample's and strictly smaller than every earlier sample's. -/
def FirstMin (cosd sind : ℚ → ℚ) (st : GameState) (n t : ℕ) (best : SearchBest) : Prop :=
  ∃ m : ℕ, m < t ∧ m < n ∧ best.index = ((3 * m : ℕ) : ℤ) ∧
    best.vertex = some (samplePoint cosd sind st m) ∧
    best.dist = some (sampleD cosd sind st m) ∧
    (∀ m' : ℕ, m' < t → m' < n → sampleD cosd sind st m ≤ sampleD cosd sind st m') ∧
    (∀ m' : ℕ, m' < m → sampleD cosd sind st m < sampleD cosd sind st m')

/-- Modelled from the spec: the world-space transform C3 claims
`getCurvePoint` applies to a curve sample — rotate about the origin by the
accumulated pitch about X, then yaw about Y, then roll about Z (each call
chaining on the previous result), then the fixed 85-degree rotation about Y,
then translate by the track's world offset plus the vehicle's fixed
longitudinal offset. -/
def claimedCurveTransform (cosd sind : ℚ → ℚ) (st : GameState) (p : Vec3Q) : Vec3Q :=
  let q := rotX p v3zero (cosd st.rotation0) (sind st.rotation0)
  let q := rotY q v3zero (cosd st.rotation1) (sind st.rotation1)
  let q := rotZ q v3zero (cosd st.rotation2) (sind st.rotation2)
  let q := rotY q v3zero (cosd 85) (sind 85)
  v3add q ⟨st.trackPosition.x, st.trackPosition.y, st.trackPosition.z + carPosition.z⟩

/-- Session used for the C3 failing input: pitch 90 degrees, yaw and roll 0,
track offset at the origin. -/
def c3State : GameState := { baseState with rotation0 := 90, trackPosition := ⟨0, 0, 0⟩ }

/-- Exactness of racing.js `round`: when `1000000 * (value + factor)` is an
integer, rounding to the nearest millionth returns `value + factor`
unchanged.  Every ramp step of the physics keeps the velocity a multiple of
`1/1000000`, so the ramps are exact. -/
theorem round_exact (v f : ℚ) (m : ℤ) (h : 1000000 * (v + f) = m) :
    round v f = v + f := by
  unfold round jsRound
  rw [h]
  have hfl : ⌊(m : ℚ) + 1/2⌋ = m := by
    rw [add_comm, Int.floor_add_int]
    norm_num
  rw [hfl]
  have : (m : ℚ) = 1000000 * (v + f) := h ▸ rfl
  rw [this]
  ring

/-- Closed form of the forward-control block: only the forward value
changes, following the pressed/released ramp. -/
theorem accelerateForwardPart_eq (v : ℚ) (st : GameState) :
    accelerateForwardPart v st
      = { st with fwd := { st.fwd with value :=
            if st.fwd.pressed then
              (if v < maxPower then round v powerFactor else st.fwd.value)
            else
              (if v > 0 then round v (-powerFactor) else st.fwd.value) } } := by
  unfold accelerateForwardPart
  split_ifs <;> rfl

/-- Closed form of the backward-control block: only the backward value
changes, following the pressed/released/crashed ramp. -/
theorem accelerateBackwardPart_eq (v : ℚ) (st : GameState) :
    accelerateBackwardPart v st
      = { st with bwd := { st.bwd with value :=
            if st.bwd.pressed then
              (if st.hasCrashed then round v (-reverseFactor * 5)
               else if v > maxReverse then round v reverseFactor
               else st.bwd.value)
            else
              (if v < 0 then round v (-reverseFactor) else st.bwd.value) } } := by
  unfold accelerateBackwardPart
  split_ifs <;> rfl

/-- Closed form of the idle-flag line of `accelerate` (line 500): the
conditional write of `isIdle` is a single-field update. -/
theorem idleUpd (c : Bool) (x : GameState) :
    (if c = true then { x with isIdle := true } else x)
      = { x with isIdle := if c = true then true else x.isIdle } := by
  split <;> rfl

/-! ### C1 -/

/-- C1, claim as stated is false: with `beforePoint = (10, 10, 10)` and
`afterPoint = carPosition` itself (distance 0 from the vehicle, strictly
closer than `beforePoint`), `determinePointByDistance` still returns
`beforePoint`.  Both `vec3.distance` calls of the source ignore the candidate
passed as third argument and measure the origin-to-`carPosition` distance, so
the `<` comparison is between equal values and the `beforePoint` branch is
always taken. -/
theorem C1_claim_false :
    determinePointByDistance (some ⟨10, 10, 10⟩) (some carPosition) = some ⟨10, 10, 10⟩ ∧
    distSq carPosition carPosition < distSq carPosition ⟨10, 10, 10⟩ ∧
    (⟨10, 10, 10⟩ : Vec3Q) ≠ carPosition := by
  refine ⟨by simp [determinePointByDistance], by norm_num [distSq, carPosition],
    by simp only [carPosition, ne_eq, Vec3Q.mk.injEq]; norm_num⟩

/-- C1 amended: `determinePointByDistance` always returns `pointBefore`,
whatever the two candidate points (even NaN ones) and however far each is
from the vehicle: both distances computed by the source equal the constant
origin-to-`carPosition` distance (the candidate is passed as an ignored third
argument to the two-argument `vec3.distance`), so the strict comparison
fails and the `beforePoint` branch is taken — in particular ties yield
`pointBefore`, not `pointAfter`. -/
theorem C1_always_returns_pointBefore (beforePoint afterPoint : Option Vec3Q) :
    determinePointByDistance beforePoint afterPoint = beforePoint := by
  simp [determinePointByDistance]

/-! ### C9 -/

/-- C9: while paused and not won, `calculateElapsedTime` leaves
`gameCurrTime` unchanged regardless of the current wall-clock time: the
paused branch recomputes `gamePausedTime = currTime - gameCurrTime` and the
subsequent assignment sets `gameCurrTime = currTime - gamePausedTime`, which
cancels back to the old `gameCurrTime`. -/
theorem C9_paused_time_frozen (currTime : ℚ) (st : GameState)
    (hp : st.isPaused = true) (hw : st.hasWon = false) :
    (calculateElapsedTime currTime st).gameCurrTime = st.gameCurrTime := by
  simp [calculateElapsedTime, hp, hw]

/-- Witness for C9 at a concrete paused state and wall-clock time. -/
theorem C9_paused_time_frozen_witness :
    { baseState with isPaused := true }.isPaused = true ∧
    { baseState with isPaused := true }.hasWon = false ∧
    (calculateElapsedTime 123456 { baseState with isPaused := true }).gameCurrTime =
      { baseState with isPaused := true }.gameCurrTime :=
  ⟨rfl, rfl, C9_paused_time_frozen 123456 _ rfl rfl⟩

/-! ### C7 -/

/-- Field-wise effect of one `accelerate` tick on a state whose backward
control is released with value 0: the forward value follows the
pressed/released ramp of lines 487-491, and the other session fields are
untouched. -/
theorem accelerate_fwd_fields (s : GameState) (hp : s.isPaused = false)
    (hbp : s.bwd.pressed = false) (hbv : s.bwd.value = 0) :
    (accelerate s).fwd.value =
      (if s.fwd.pressed then
         (if s.fwd.value < maxPower then round s.fwd.value powerFactor else s.fwd.value)
       else
         (if s.fwd.value > 0 then round s.fwd.value (-powerFactor) else s.fwd.value)) ∧
    (accelerate s).fwd.pressed = s.fwd.pressed ∧
    (accelerate s).isPaused = false ∧
    (accelerate s).bwd.pressed = false ∧
    (accelerate s).bwd.value = 0 ∧
    (accelerate s).hasCrashed = s.hasCrashed ∧
    (accelerate s).atTitleScreen = s.atTitleScreen ∧
    (accelerate s).hasStarted = s.hasStarted ∧
    (accelerate s).turningIsTurning = s.turningIsTurning := by
  simp only [accelerate, accelerateForwardPart_eq, accelerateBackwardPart_eq, idleUpd, hp,
    Bool.not_false, if_true]
  refine ⟨?_, ?_, ?_, ?_, ?_, ?_, ?_, ?_, ?_⟩ <;> simp [hbp, hbv] <;> split_ifs <;> rfl

/-- Invariant of the held-forward ramp: after `k` ticks the forward value is
`min (k * powerFactor) maxPower`, and the scenario fields persist. -/
theorem fwdHold_inv (k : ℕ) :
    (accelerate^[k] forwardHeld).fwd.value = min ((k : ℚ) / 100000) (1/100) ∧
    (accelerate^[k] forwardHeld).fwd.pressed = true ∧
    (accelerate^[k] forwardHeld).isPaused = false ∧
    (accelerate^[k] forwardHeld).bwd.pressed = false ∧
    (accelerate^[k] forwardHeld).bwd.value = 0 ∧
    (accelerate^[k] forwardHeld).atTitleScreen = false ∧
    (accelerate^[k] forwardHeld).hasStarted = true ∧
    (accelerate^[k] forwardHeld).turningIsTurning = false := by
  induction k with
  | zero =>
    refine ⟨?_, rfl, rfl, rfl, rfl, rfl, rfl, rfl⟩
    norm_num [forwardHeld, baseState]
  | succ n ih =>
    obtain ⟨hv, hfp, hp, hbp, hbv, hts, hhs, htt⟩ := ih
    rw [Function.iterate_succ_apply']
    have H := accelerate_fwd_fields _ hp hbp hbv
    refine ⟨?_, by rw [H.2.1, hfp], H.2.2.1, H.2.2.2.1, H.2.2.2.2.1,
      by rw [H.2.2.2.2.2.2.1, hts], by rw [H.2.2.2.2.2.2.2.1, hhs],
      by rw [H.2.2.2.2.2.2.2.2, htt]⟩
    rw [H.1, hfp, hv]
    by_cases hn : n < 1000
    · have hlt : ((n : ℚ) / 100000) < 1/100 := by
        have : (n : ℚ) < 1000 := by exact_mod_cast hn
        linarith
      have hmin : min ((n : ℚ) / 100000) (1/100) = (n : ℚ) / 100000 :=
        min_eq_left (le_of_lt hlt)
      rw [if_pos rfl, hmin, if_pos (by rw [maxPower]; exact hlt)]
      have hr : round ((n : ℚ) / 100000) powerFactor = (n : ℚ) / 100000 + 1/100000 := by
        apply round_exact _ _ (10 * (n : ℤ) + 10)
        push_cast [powerFactor]
        ring
      rw [hr]
      have hle : ((n : ℚ) + 1) / 100000 ≤ 1/100 := by
        have : (n : ℚ) ≤ 999 := by exact_mod_cast Nat.lt_succ_iff.mp hn
        linarith
      rw [min_eq_left (by push_cast; linarith)]
      push_cast
      ring
    · have hge : (1000 : ℚ) ≤ (n : ℚ) := by exact_mod_cast Nat.le_of_not_lt hn
      have hmin : min ((n : ℚ) / 100000) (1/100) = 1/100 :=
        min_eq_right (by linarith)
      rw [if_pos rfl, hmin, if_neg (by rw [maxPower]; exact lt_irrefl _)]
      have h2 : min (((n + 1 : ℕ) : ℚ) / 100000) (1/100) = 1/100 := by
        apply min_eq_right
        push_cast
        linarith
      rw [h2]

/-- Releasing the forward key in-game (no deferred turn pending) only clears
the forward pressed flag. -/
theorem onKeyUp_release_fields (s : GameState) (hts : s.atTitleScreen = false)
    (hhs : s.hasStarted = true) (htt : s.turningIsTurning = false) :
    (onKeyUp (.game .forwardK) s).fwd.value = s.fwd.value ∧
    (onKeyUp (.game .forwardK) s).fwd.pressed = false ∧
    (onKeyUp (.game .forwardK) s).isPaused = s.isPaused ∧
    (onKeyUp (.game .forwardK) s).bwd.pressed = s.bwd.pressed ∧
    (onKeyUp (.game .forwardK) s).bwd.value = s.bwd.value := by
  simp [onKeyUp, hts, hhs, htt, setCtrl, ctrlOf]

/-- Invariant of the released-forward ramp: after `j` ticks from the released
cap state the forward value is `max (maxPower - j * powerFactor) 0`. -/
theorem fwdRelease_inv (j : ℕ) :
    (accelerate^[j] forwardReleased).fwd.value = max (1/100 - (j : ℚ) / 100000) 0 ∧
    (accelerate^[j] forwardReleased).fwd.pressed = false ∧
    (accelerate^[j] forwardReleased).isPaused = false ∧
    (accelerate^[j] forwardReleased).bwd.pressed = false ∧
    (accelerate^[j] forwardReleased).bwd.value = 0 := by
  induction j with
  | zero =>
    obtain ⟨hv, hfp, hp, hbp, hbv, hts, hhs, htt⟩ := fwdHold_inv 1000
    have H := onKeyUp_release_fields _ hts hhs htt
    refine ⟨?_, ?_, ?_, ?_, ?_⟩ <;> rw [Function.iterate_zero_apply, forwardReleased]
    · rw [H.1, hv]
      norm_num
    · exact H.2.1
    · rw [H.2.2.1, hp]
    · rw [H.2.2.2.1, hbp]
    · rw [H.2.2.2.2, hbv]
  | succ n ih =>
    obtain ⟨hv, hfp, hp, hbp, hbv⟩ := ih
    rw [Function.iterate_succ_apply']
    have H := accelerate_fwd_fields _ hp hbp hbv
    refine ⟨?_, by rw [H.2.1, hfp], H.2.2.1, H.2.2.2.1, H.2.2.2.2.1⟩
    rw [H.1, hfp, hv]
    by_cases hn : n < 1000
    · have hpos : (0 : ℚ) < 1/100 - (n : ℚ) / 100000 := by
        have : (n : ℚ) < 1000 := by exact_mod_cast hn
        linarith
      have hmax : max (1/100 - (n : ℚ) / 100000) 0 = 1/100 - (n : ℚ) / 100000 :=
        max_eq_left (le_of_lt hpos)
      rw [if_neg (by simp), hmax, if_pos hpos]
      have hr := round_exact (1/100 - (n : ℚ) / 100000) (-powerFactor)
        (10000 - 10 * (n : ℤ) - 10) (by push_cast [powerFactor]; ring)
      rw [hr]
      have hge : (0 : ℚ) ≤ 1/100 - ((n + 1 : ℕ) : ℚ) / 100000 := by
        have : (n : ℚ) ≤ 999 := by exact_mod_cast Nat.lt_succ_iff.mp hn
        push_cast
        linarith
      rw [max_eq_left hge, powerFactor]
      push_cast
      ring
    · have hge : (1000 : ℚ) ≤ (n : ℚ) := by exact_mod_cast Nat.le_of_not_lt hn
      have hmax : max (1/100 - (n : ℚ) / 100000) 0 = 0 :=
        max_eq_right (by linarith)
      rw [if_neg (by simp), hmax, if_neg (by norm_num)]
      have h2 : max (1/100 - ((n + 1 : ℕ) : ℚ) / 100000) 0 = 0 := by
        apply max_eq_right
        push_cast
        linarith
      rw [h2]

/-- C7: from a standing start with the forward key held (state
`forwardHeld`), tick `k` of `accelerate` yields forward value
`k * powerFactor` up to tick 1000 — strictly increasing — after which the
value stays at the cap `maxPower = 0.01`; from the moment the key is
released at the cap (state `forwardReleased`), tick `j` yields
`maxPower - j * powerFactor` down to tick 1000 — strictly decreasing — after
which the value stays at exactly 0, and the value never becomes
negative. -/
theorem C7_forward_ramp :
    (∀ k : ℕ, k ≤ 1000 → (accelerate^[k] forwardHeld).fwd.value = (k : ℚ) / 100000) ∧
    (∀ k : ℕ, k < 1000 →
      (accelerate^[k] forwardHeld).fwd.value < (accelerate^[k + 1] forwardHeld).fwd.value) ∧
    (∀ k : ℕ, 1000 ≤ k → (accelerate^[k] forwardHeld).fwd.value = maxPower) ∧
    (∀ j : ℕ, j ≤ 1000 →
      (accelerate^[j] forwardReleased).fwd.value = maxPower - (j : ℚ) / 100000) ∧
    (∀ j : ℕ, j < 1000 →
      (accelerate^[j + 1] forwardReleased).fwd.value < (accelerate^[j] forwardReleased).fwd.value) ∧
    (∀ j : ℕ, 1000 ≤ j → (accelerate^[j] forwardReleased).fwd.value = 0) ∧
    (∀ j : ℕ, 0 ≤ (accelerate^[j] forwardReleased).fwd.value) := by
  have hold := fun k => (fwdHold_inv k).1
  have hrel := fun j => (fwdRelease_inv j).1
  refine ⟨?_, ?_, ?_, ?_, ?_, ?_, ?_⟩
  · intro k hk
    rw [hold k]
    apply min_eq_left
    have : (k : ℚ) ≤ 1000 := by exact_mod_cast hk
    linarith
  · intro k hk
    rw [hold k, hold (k + 1)]
    have h1 : (k : ℚ) < 1000 := by exact_mod_cast hk
    have h2 : ((k : ℚ) + 1) ≤ 1000 := by
      have : (k : ℚ) ≤ 999 := by exact_mod_cast Nat.lt_succ_iff.mp hk
      linarith
    rw [min_eq_left (by linarith), min_eq_left (by push_cast; linarith)]
    push_cast
    linarith
  · intro k hk
    rw [hold k, maxPower]
    apply min_eq_right
    have : (1000 : ℚ) ≤ (k : ℚ) := by exact_mod_cast hk
    linarith
  · intro j hj
    rw [hrel j, maxPower]
    apply max_eq_left
    have : (j : ℚ) ≤ 1000 := by exact_mod_cast hj
    linarith
  · intro j hj
    rw [hrel j, hrel (j + 1)]
    have h1 : (j : ℚ) < 1000 := by exact_mod_cast hj
    have h2 : ((j : ℚ) + 1) ≤ 1000 := by
      have : (j : ℚ) ≤ 999 := by exact_mod_cast Nat.lt_succ_iff.mp hj
      linarith
    rw [max_eq_left (by push_cast; linarith), max_eq_left (by linarith)]
    push_cast
    linarith
  · intro j hj
    rw [hrel j]
    apply max_eq_right
    have : (1000 : ℚ) ≤ (j : ℚ) := by exact_mod_cast hj
    linarith
  · intro j
    rw [hrel j]
    exact le_max_right _ _

/-- Witness for C7 at concrete tick counts: three held ticks give value
`0.00003`, and past tick 1000 the held value sits at the cap while the
released value sits at 0. -/
theorem C7_forward_ramp_witness :
    ((3 : ℕ) ≤ 1000 ∧ (accelerate^[3] forwardHeld).fwd.value = (3 : ℚ) / 100000) ∧
    ((1000 : ℕ) ≤ 1200 ∧ (accelerate^[1200] forwardHeld).fwd.value = maxPower) ∧
    ((1000 : ℕ) ≤ 1500 ∧ (accelerate^[1500] forwardReleased).fwd.value = 0) :=
  ⟨⟨by norm_num, C7_forward_ramp.1 3 (by norm_num)⟩,
   ⟨by norm_num, C7_forward_ramp.2.2.1 1200 (by norm_num)⟩,
   ⟨by norm_num, C7_forward_ramp.2.2.2.2.2.1 1500 (by norm_num)⟩⟩

/-! ### C6 -/

/-- Field-wise effect of one `accelerate` tick while crashed with the
backward control pressed: the backward value takes one `-reverseFactor * 5`
recovery step and the session flags are untouched. -/
theorem accelerate_crash_fields (s : GameState) (hp : s.isPaused = false)
    (hbp : s.bwd.pressed = true) (hc : s.hasCrashed = true) :
    (accelerate s).bwd.value = round s.bwd.value (-reverseFactor * 5) ∧
    (accelerate s).bwd.pressed = true ∧
    (accelerate s).isPaused = false ∧
    (accelerate s).hasCrashed = true ∧
    (accelerate s).keydownAttached = s.keydownAttached := by
  simp only [accelerate, accelerateForwardPart_eq, accelerateBackwardPart_eq, idleUpd, hp,
    Bool.not_false, if_true]
  refine ⟨?_, ?_, ?_, ?_, ?_⟩ <;> simp [hbp, hc] <;> split_ifs <;> rfl

/-- Field-wise effect of the movement block on a crashed unpaused state: the
backward value is left alone; when it has reached exactly 0 the crash state,
the backward pressed flag and the listener removal are all cleared, and
otherwise all three persist. -/
theorem movementPhase_crash_fields (dv : Vec3Q) (s : GameState) (hp : s.isPaused = false)
    (hc : s.hasCrashed = true) :
    (movementPhase s dv).2.bwd.value = s.bwd.value ∧
    (movementPhase s dv).2.isPaused = false ∧
    (s.bwd.value = 0 →
      (movementPhase s dv).2.hasCrashed = false ∧
      (movementPhase s dv).2.bwd.pressed = false ∧
      (movementPhase s dv).2.keydownAttached = true) ∧
    (s.bwd.value ≠ 0 →
      (movementPhase s dv).2.hasCrashed = true ∧
      (movementPhase s dv).2.bwd.pressed = s.bwd.pressed ∧
      (movementPhase s dv).2.keydownAttached = s.keydownAttached) := by
  simp only [movementPhase, hp, hc, Bool.not_false, Bool.not_true, if_true, Bool.false_eq_true,
    if_false]
  split_ifs <;> simp_all

/-- Invariant of the crash-recovery ramp: after `k ≤ 80` recovery ticks from
`crash st` the backward value is `maxReverse + k * 0.000025`; the crash
state, pressed flag and listener removal persist strictly before tick 80 and
are all cleared at tick 80. -/
theorem recovery_inv (st : GameState) (hp : st.isPaused = false) :
    ∀ k : ℕ, k ≤ 80 →
    (recoveryTick^[k] (crash st)).bwd.value = -1/500 + (k : ℚ) / 40000 ∧
    (recoveryTick^[k] (crash st)).isPaused = false ∧
    (k < 80 →
      (recoveryTick^[k] (crash st)).hasCrashed = true ∧
      (recoveryTick^[k] (crash st)).bwd.pressed = true ∧
      (recoveryTick^[k] (crash st)).keydownAttached = false) ∧
    (k = 80 →
      (recoveryTick^[k] (crash st)).hasCrashed = false ∧
      (recoveryTick^[k] (crash st)).bwd.pressed = false ∧
      (recoveryTick^[k] (crash st)).keydownAttached = true) := by
  intro k
  induction k with
  | zero =>
    intro _
    refine ⟨by norm_num [crash, maxReverse], by simp [crash, hp], fun _ => ?_,
      fun h => absurd h (by omega)⟩
    refine ⟨by simp [crash], by simp [crash], by simp [crash]⟩
  | succ n ih =>
    intro hk
    have hn80 : n < 80 := by omega
    obtain ⟨hv, hpn, hflags, -⟩ := ih (by omega)
    obtain ⟨hcn, hbpn, hkdn⟩ := hflags hn80
    rw [Function.iterate_succ_apply', recoveryTick]
    have HA := accelerate_crash_fields _ hpn hbpn hcn
    have hav : (accelerate (recoveryTick^[n] (crash st))).bwd.value
        = -1/500 + ((n + 1 : ℕ) : ℚ) / 40000 := by
      rw [HA.1, hv]
      have hr := round_exact (-1/500 + (n : ℚ) / 40000) (-reverseFactor * 5)
        (-2000 + 25 * (n : ℤ) + 25) (by push_cast [reverseFactor]; ring)
      rw [hr, reverseFactor]
      push_cast
      ring
    have HM := movementPhase_crash_fields v3zero _ HA.2.2.1 HA.2.2.2.1
    refine ⟨by rw [HM.1, hav], HM.2.1, ?_, ?_⟩
    · intro h80
      have hne : (accelerate (recoveryTick^[n] (crash st))).bwd.value ≠ 0 := by
        rw [hav]
        have hle : ((n + 1 : ℕ) : ℚ) ≤ 79 := by exact_mod_cast (by omega : n + 1 ≤ 79)
        push_cast at hle ⊢
        intro hzero
        linarith
      obtain ⟨h1, h2, h3⟩ := HM.2.2.2 hne
      exact ⟨h1, by rw [h2, HA.2.1], by rw [h3, HA.2.2.2.2, hkdn]⟩
    · intro h80
      have hz : (accelerate (recoveryTick^[n] (crash st))).bwd.value = 0 := by
        rw [hav]
        have : n + 1 = 80 := by omega
        rw [this]
        norm_num
      exact HM.2.2.1 hz

/-- C6: after `crash()` fires — which sets the backward value to
`maxReverse = -0.002`, marks the backward control pressed and removes the
keyboard listener — every unpaused collision-free frame's `accelerate` tick
raises the backward value by exactly `0.000025 = 5 * |reverseFactor|`; the
value is nonzero for the first 79 ticks and reaches exactly 0 at tick 80, in
whose frame the crash state clears, the backward pressed flag clears and the
keyboard listener is re-attached. -/
theorem C6_crash_recovery (st : GameState) (hp : st.isPaused = false) :
    (crash st).bwd.value = maxReverse ∧
    (crash st).bwd.pressed = true ∧
    (crash st).keydownAttached = false ∧
    (crash st).hasCrashed = true ∧
    (∀ k : ℕ, k < 80 →
      (recoveryTick^[k] (crash st)).hasCrashed = true ∧
      (recoveryTick^[k] (crash st)).bwd.pressed = true ∧
      (recoveryTick^[k] (crash st)).keydownAttached = false ∧
      (recoveryTick^[k] (crash st)).bwd.value ≠ 0 ∧
      (recoveryTick^[k + 1] (crash st)).bwd.value
        = (recoveryTick^[k] (crash st)).bwd.value + 1/40000) ∧
    (recoveryTick^[80] (crash st)).bwd.value = 0 ∧
    (recoveryTick^[80] (crash st)).hasCrashed = false ∧
    (recoveryTick^[80] (crash st)).bwd.pressed = false ∧
    (recoveryTick^[80] (crash st)).keydownAttached = true := by
  have hinv := recovery_inv st hp
  refine ⟨by simp [crash], by simp [crash], by simp [crash], by simp [crash], ?_, ?_, ?_, ?_, ?_⟩
  · intro k hk
    obtain ⟨hv, -, hflags, -⟩ := hinv k (by omega)
    obtain ⟨hv1, -, -, -⟩ := hinv (k + 1) (by omega)
    obtain ⟨h1, h2, h3⟩ := hflags hk
    refine ⟨h1, h2, h3, ?_, ?_⟩
    · rw [hv]
      have : (k : ℚ) ≤ 79 := by exact_mod_cast (by omega : k ≤ 79)
      intro hzero
      have h79 : (k : ℚ) / 40000 ≤ 79 / 40000 := by linarith
      norm_num at hzero
      linarith [hzero]
    · rw [hv, hv1]
      push_cast
      ring
  · rw [(hinv 80 le_rfl).1]
    norm_num
  · exact ((hinv 80 le_rfl).2.2.2 rfl).1
  · exact ((hinv 80 le_rfl).2.2.2 rfl).2.1
  · exact ((hinv 80 le_rfl).2.2.2 rfl).2.2

/-- Witness for C6 at the concrete unpaused base session state. -/
theorem C6_crash_recovery_witness :
    baseState.isPaused = false ∧
    ((crash baseState).bwd.value = maxReverse ∧
     (crash baseState).bwd.pressed = true ∧
     (crash baseState).keydownAttached = false ∧
     (crash baseState).hasCrashed = true ∧
     (∀ k : ℕ, k < 80 →
       (recoveryTick^[k] (crash baseState)).hasCrashed = true ∧
       (recoveryTick^[k] (crash baseState)).bwd.pressed = true ∧
       (recoveryTick^[k] (crash baseState)).keydownAttached = false ∧
       (recoveryTick^[k] (crash baseState)).bwd.value ≠ 0 ∧
       (recoveryTick^[k + 1] (crash baseState)).bwd.value
         = (recoveryTick^[k] (crash baseState)).bwd.value + 1/40000) ∧
     (recoveryTick^[80] (crash baseState)).bwd.value = 0 ∧
     (recoveryTick^[80] (crash baseState)).hasCrashed = false ∧
     (recoveryTick^[80] (crash baseState)).bwd.pressed = false ∧
     (recoveryTick^[80] (crash baseState)).keydownAttached = true) :=
  ⟨rfl, C6_crash_recovery baseState rfl⟩

/-! ### Preservation lemmas for the frame step -/

/-- `collide` only ever touches the crash fields (via `crash()`), the
previous-rotation bookkeeping and the displacement: the progress flags,
pause flag, rotations, forward control and position survive unchanged. -/
theorem collide_keeps (s : GameState) (p : Option Vec3Q) (dv : Vec3Q) (tl tr : Option ℚ) :
    (collide s p dv tl tr).2.hasReachedCheckpoint = s.hasReachedCheckpoint ∧
    (collide s p dv tl tr).2.hasWon = s.hasWon ∧
    (collide s p dv tl tr).2.isPaused = s.isPaused ∧
    (collide s p dv tl tr).2.rotation0 = s.rotation0 ∧
    (collide s p dv tl tr).2.rotation1 = s.rotation1 ∧
    (collide s p dv tl tr).2.rotation2 = s.rotation2 ∧
    (collide s p dv tl tr).2.fwd = s.fwd ∧
    (collide s p dv tl tr).2.trackPosition = s.trackPosition := by
  simp only [collide]
  split_ifs <;> simp [crash]

/-- `stayOnTrack` only rewrites `rotation[0]`, the previous rotations and the
crash fields: the progress flags, pause flag, yaw, roll, forward control and
position survive unchanged. -/
theorem stayOnTrack_keeps (cosd sind : ℚ → ℚ) (ang : Vec3Q → Vec3Q → ℚ)
    (s : GameState) (dv : Vec3Q) :
    (stayOnTrack cosd sind ang s dv).2.hasReachedCheckpoint = s.hasReachedCheckpoint ∧
    (stayOnTrack cosd sind ang s dv).2.hasWon = s.hasWon ∧
    (stayOnTrack cosd sind ang s dv).2.isPaused = s.isPaused ∧
    (stayOnTrack cosd sind ang s dv).2.rotation1 = s.rotation1 ∧
    (stayOnTrack cosd sind ang s dv).2.rotation2 = s.rotation2 ∧
    (stayOnTrack cosd sind ang s dv).2.fwd = s.fwd ∧
    (stayOnTrack cosd sind ang s dv).2.trackPosition = s.trackPosition := by
  simp only [stayOnTrack]
  refine ⟨?_, ?_, ?_, ?_, ?_, ?_, ?_⟩ <;>
    first
      | (rw [(collide_keeps _ _ _ _ _).1]; split <;> rfl)
      | (rw [(collide_keeps _ _ _ _ _).2.1]; split <;> rfl)
      | (rw [(collide_keeps _ _ _ _ _).2.2.1]; split <;> rfl)
      | (rw [(collide_keeps _ _ _ _ _).2.2.2.2.1]; split <;> rfl)
      | (rw [(collide_keeps _ _ _ _ _).2.2.2.2.2.1]; split <;> rfl)
      | (rw [(collide_keeps _ _ _ _ _).2.2.2.2.2.2.1]; split <;> rfl)
      | (rw [(collide_keeps _ _ _ _ _).2.2.2.2.2.2.2]; split <;> rfl)

/-- `accelerate` only rewrites the control values and `isIdle`. -/
theorem accelerate_keeps (s : GameState) :
    (accelerate s).hasReachedCheckpoint = s.hasReachedCheckpoint ∧
    (accelerate s).hasWon = s.hasWon ∧
    (accelerate s).isPaused = s.isPaused ∧
    (accelerate s).rotation0 = s.rotation0 ∧
    (accelerate s).rotation1 = s.rotation1 ∧
    (accelerate s).rotation2 = s.rotation2 ∧
    (accelerate s).trackPosition = s.trackPosition := by
  simp only [accelerate, accelerateForwardPart_eq, accelerateBackwardPart_eq, idleUpd]
  split_ifs <;> exact ⟨rfl, rfl, rfl, rfl, rfl, rfl, rfl⟩

/-- The movement block only rewrites the yaw, the crash/backward/listener
fields and the displacement. -/
theorem movementPhase_keeps (s : GameState) (dv : Vec3Q) :
    (movementPhase s dv).2.hasReachedCheckpoint = s.hasReachedCheckpoint ∧
    (movementPhase s dv).2.hasWon = s.hasWon ∧
    (movementPhase s dv).2.isPaused = s.isPaused ∧
    (movementPhase s dv).2.rotation0 = s.rotation0 ∧
    (movementPhase s dv).2.rotation2 = s.rotation2 ∧
    (movementPhase s dv).2.trackPosition = s.trackPosition := by
  simp only [movementPhase]
  split_ifs <;> simp

/-- When paused, `accelerate` leaves both control records untouched. -/
theorem accelerate_paused (s : GameState) (hp : s.isPaused = true) :
    (accelerate s).fwd = s.fwd ∧ (accelerate s).bwd = s.bwd := by
  simp only [accelerate, hp, Bool.not_true, Bool.false_eq_true, if_false]
  split <;> exact ⟨rfl, rfl⟩

/-- When paused, the movement block is the identity on state and
displacement. -/
theorem movementPhase_paused (s : GameState) (dv : Vec3Q) (hp : s.isPaused = true) :
    movementPhase s dv = (dv, s) := by
  simp [movementPhase, hp]

/-- Progress-flag behaviour of `checkReachedCheckpoint`, plus the fields it
leaves untouched. -/
theorem checkReachedCheckpoint_spec (s : GameState) :
    ((checkReachedCheckpoint s).hasReachedCheckpoint = true ↔
      (s.hasReachedCheckpoint = true ∨ distSq v3zero s.trackPosition > 49/4)) ∧
    (checkReachedCheckpoint s).hasWon = s.hasWon ∧
    (checkReachedCheckpoint s).isPaused = s.isPaused ∧
    (checkReachedCheckpoint s).rotation1 = s.rotation1 ∧
    (checkReachedCheckpoint s).rotation2 = s.rotation2 ∧
    (checkReachedCheckpoint s).fwd = s.fwd ∧
    (checkReachedCheckpoint s).trackPosition = s.trackPosition := by
  unfold checkReachedCheckpoint
  split_ifs with h <;> simp [h]

/-- Progress-flag behaviour of `checkReachedFinish`, plus the fields it
leaves untouched. -/
theorem checkReachedFinish_spec (s : GameState) :
    ((checkReachedFinish s).hasWon = true ↔
      (s.hasWon = true ∨ distSq v3zero s.trackPosition < 9/100)) ∧
    (checkReachedFinish s).hasReachedCheckpoint = s.hasReachedCheckpoint ∧
    (checkReachedFinish s).isPaused = s.isPaused ∧
    (checkReachedFinish s).rotation1 = s.rotation1 ∧
    (checkReachedFinish s).rotation2 = s.rotation2 ∧
    (checkReachedFinish s).fwd = s.fwd ∧
    (checkReachedFinish s).trackPosition = s.trackPosition := by
  unfold checkReachedFinish
  split_ifs with h <;> simp [h]

/-- The two progress flags of a frame are exactly those produced by the
flag-check phase at the top of `updatePosition`: no later phase of the frame
writes either flag. -/
theorem updatePosition_flag_phase (cosd sind : ℚ → ℚ) (ang : Vec3Q → Vec3Q → ℚ)
    (s : GameState) :
    (updatePosition cosd sind ang s).hasReachedCheckpoint
      = (if !s.hasReachedCheckpoint then checkReachedCheckpoint s
         else checkReachedFinish s).hasReachedCheckpoint ∧
    (updatePosition cosd sind ang s).hasWon
      = (if !s.hasReachedCheckpoint then checkReachedCheckpoint s
         else checkReachedFinish s).hasWon := by
  have htp : ∀ (x : GameState) (v : Vec3Q),
      ({ x with trackPosition := v }).hasReachedCheckpoint = x.hasReachedCheckpoint ∧
      ({ x with trackPosition := v }).hasWon = x.hasWon := fun _ _ => ⟨rfl, rfl⟩
  simp only [updatePosition]
  constructor
  · rw [(htp _ _).1, (stayOnTrack_keeps _ _ _ _ _).1, (movementPhase_keeps _ _).1,
      (accelerate_keeps _).1]
  · rw [(htp _ _).2, (stayOnTrack_keeps _ _ _ _ _).2.1, (movementPhase_keeps _ _).2.1,
      (accelerate_keeps _).2.1]

/-! ### C8 -/

/-- C8: in every frame, `hasReachedCheckpoint` can newly become true only
when the distance from the world origin to `trackPosition` (the quantity the
progress checks measure — C4's identification of the vehicle with
`trackPosition`; squared thresholds per the conventions) exceeds 3.5, and
`hasWon` can newly become true only when `hasReachedCheckpoint` was already
true at the start of the frame and that distance is under 0.3: the frame
checks `checkReachedCheckpoint` only while the checkpoint flag is unset and
`checkReachedFinish` only afterwards, and no other code writes either
flag. -/
theorem C8_progress_gating (cosd sind : ℚ → ℚ) (ang : Vec3Q → Vec3Q → ℚ)
    (st : GameState) :
    ((updatePosition cosd sind ang st).hasReachedCheckpoint = true →
      st.hasReachedCheckpoint = true ∨ distSq v3zero st.trackPosition > 49/4) ∧
    ((updatePosition cosd sind ang st).hasWon = true →
      st.hasWon = true ∨
        (st.hasReachedCheckpoint = true ∧ distSq v3zero st.trackPosition < 9/100)) := by
  obtain ⟨hRC, hW⟩ := updatePosition_flag_phase cosd sind ang st
  cases hrc : st.hasReachedCheckpoint with
  | false =>
    rw [hrc] at hRC hW
    simp only [Bool.not_false, if_true] at hRC hW
    constructor
    · intro h
      rw [hRC] at h
      rcases (checkReachedCheckpoint_spec st).1.mp h with h' | h'
      · rw [hrc] at h'
        cases h'
      · exact Or.inr h'
    · intro h
      rw [hW, (checkReachedCheckpoint_spec st).2.1] at h
      exact Or.inl h
  | true =>
    rw [hrc] at hRC hW
    simp only [Bool.not_true, Bool.false_eq_true, if_false] at hRC hW
    constructor
    · intro _
      exact Or.inl rfl
    · intro h
      rw [hW] at h
      rcases (checkReachedFinish_spec st).1.mp h with h' | h'
      · exact Or.inl h'
      · exact Or.inr ⟨rfl, h'⟩

/-- Witness for C8: a session at `trackPosition = (0, 0, -3.6)` — origin
distance squared `12.96 > 12.25` — with the checkpoint flag still unset
really does set it this frame, and the theorem then yields the distance
bound (the trigonometric parameters are irrelevant to the flag phase and are
instantiated by zero functions). -/
theorem C8_progress_gating_witness :
    (updatePosition (fun _ => 0) (fun _ => 0) (fun _ _ => 0)
        { baseState with trackPosition := ⟨0, 0, -18/5⟩ }).hasReachedCheckpoint = true ∧
    ({ baseState with trackPosition := ⟨0, 0, -18/5⟩ }.hasReachedCheckpoint = true ∨
      distSq v3zero { baseState with trackPosition := ⟨0, 0, -18/5⟩ }.trackPosition > 49/4) := by
  have h : (updatePosition (fun _ => 0) (fun _ => 0) (fun _ _ => 0)
      { baseState with trackPosition := ⟨0, 0, -18/5⟩ }).hasReachedCheckpoint = true := by
    rw [(updatePosition_flag_phase _ _ _ _).1]
    have := (checkReachedCheckpoint_spec { baseState with trackPosition := ⟨0, 0, -18/5⟩ }).1
    rw [show ({ baseState with trackPosition := ⟨0, 0, -18/5⟩ } : GameState).hasReachedCheckpoint
        = false from rfl]
    simp only [Bool.not_false, if_true]
    apply this.mpr
    right
    norm_num [distSq, v3zero]
  exact ⟨h, (C8_progress_gating (fun _ => 0) (fun _ => 0) (fun _ _ => 0)
    { baseState with trackPosition := ⟨0, 0, -18/5⟩ }).1 h⟩

/-! ### C5 -/

/-- Replacing a control record never touches the progress/crash flags. -/
theorem setCtrl_flags (s : GameState) (k : GKey) (c : Ctrl) :
    (setCtrl s k c).hasReachedCheckpoint = s.hasReachedCheckpoint ∧
    (setCtrl s k c).hasWon = s.hasWon ∧
    (setCtrl s k c).hasCrashed = s.hasCrashed := by
  cases k <;> exact ⟨rfl, rfl, rfl⟩

/-- Marking a deferred turn pressed never touches the progress/crash
flags. -/
theorem setTurnPressed_flags (s : GameState) (d : TurnDir) (b : Bool) :
    (setTurnPressed s d b).hasReachedCheckpoint = s.hasReachedCheckpoint ∧
    (setTurnPressed s d b).hasWon = s.hasWon ∧
    (setTurnPressed s d b).hasCrashed = s.hasCrashed := by
  cases d <;> exact ⟨rfl, rfl, rfl⟩

/-- Closed form of the timer-start line of `onKeyDown`. -/
theorem startTimeUpd (c : Prop) [Decidable c] (t : ℚ) (x : GameState) :
    (if c then { x with gameStartTime := t } else x)
      = { x with gameStartTime := if c then t else x.gameStartTime } := by
  split <;> rfl

/-- The key-down handler never touches the progress/crash flags. -/
theorem onKeyDown_flags (t : ℚ) (k : GKey) (s : GameState) :
    (onKeyDown t k s).hasReachedCheckpoint = s.hasReachedCheckpoint ∧
    (onKeyDown t k s).hasWon = s.hasWon ∧
    (onKeyDown t k s).hasCrashed = s.hasCrashed := by
  cases k <;>
    (simp only [onKeyDown, startTimeUpd, setCtrl, ctrlOf];
     split_ifs <;> (repeat' split) <;> simp only [setTurnPressed] <;> (repeat' split) <;>
       simp)

/-- The pause toggle never touches the progress/crash flags. -/
theorem pause_flags (s : GameState) :
    (pause s).hasReachedCheckpoint = s.hasReachedCheckpoint ∧
    (pause s).hasWon = s.hasWon ∧
    (pause s).hasCrashed = s.hasCrashed := by
  unfold pause
  split_ifs <;> exact ⟨rfl, rfl, rfl⟩

/-- The key-up handler never touches the progress/crash flags. -/
theorem onKeyUp_flags (k : UKey) (s : GameState) :
    (onKeyUp k s).hasReachedCheckpoint = s.hasReachedCheckpoint ∧
    (onKeyUp k s).hasWon = s.hasWon ∧
    (onKeyUp k s).hasCrashed = s.hasCrashed := by
  cases k <;>
    simp only [onKeyUp, initializeGame, setControls, pause, setCtrl, ctrlOf] <;>
    split_ifs <;> (repeat' split) <;> simp only [setTurnPressed] <;> (repeat' split) <;>
      simp

/-- C5 amended: `hasReachedCheckpoint` and `hasWon` are indeed one-way —
the frame step preserves them once true and no event handler writes them —
and the handlers never touch `hasCrashed` either; but `hasCrashed` is not
one-way in the frame step: the recovery branch of `updatePosition` resets it
to false when the post-crash backward value reaches 0 (see the
counterexample). -/
theorem C5_flag_one_way_amended (cosd sind : ℚ → ℚ) (ang : Vec3Q → Vec3Q → ℚ)
    (t : ℚ) (gk : GKey) (uk : UKey) (st : GameState) :
    ((st.hasReachedCheckpoint = true →
        (updatePosition cosd sind ang st).hasReachedCheckpoint = true) ∧
     (st.hasWon = true → (updatePosition cosd sind ang st).hasWon = true)) ∧
    ((onKeyDown t gk st).hasReachedCheckpoint = st.hasReachedCheckpoint ∧
     (onKeyDown t gk st).hasWon = st.hasWon ∧
     (onKeyDown t gk st).hasCrashed = st.hasCrashed) ∧
    ((onKeyUp uk st).hasReachedCheckpoint = st.hasReachedCheckpoint ∧
     (onKeyUp uk st).hasWon = st.hasWon ∧
     (onKeyUp uk st).hasCrashed = st.hasCrashed) := by
  refine ⟨⟨?_, ?_⟩, onKeyDown_flags t gk st, onKeyUp_flags uk st⟩
  · intro h
    rw [(updatePosition_flag_phase cosd sind ang st).1, h]
    simp only [Bool.not_true, Bool.false_eq_true, if_false]
    rw [(checkReachedFinish_spec st).2.1, h]
  · intro h
    rw [(updatePosition_flag_phase cosd sind ang st).2]
    cases hrc : st.hasReachedCheckpoint
    · simp only [Bool.not_false, if_true]
      rw [(checkReachedCheckpoint_spec st).2.1, h]
    · simp only [Bool.not_true, Bool.false_eq_true, if_false]
      exact (checkReachedFinish_spec st).1.mpr (Or.inl h)

/-- Witness for C5's amended theorem at a concrete won-and-checkpointed
session state and concrete handler keys. -/
theorem C5_flag_one_way_amended_witness :
    ({ baseState with hasReachedCheckpoint := true, hasWon := true
       : GameState }.hasReachedCheckpoint = true ∧
     { baseState with hasReachedCheckpoint := true, hasWon := true
       : GameState }.hasWon = true) ∧
    ((updatePosition (fun _ => 0) (fun _ => 0) (fun _ _ => 0)
        { baseState with hasReachedCheckpoint := true, hasWon := true }).hasReachedCheckpoint
        = true ∧
     (updatePosition (fun _ => 0) (fun _ => 0) (fun _ _ => 0)
        { baseState with hasReachedCheckpoint := true, hasWon := true }).hasWon = true) :=
  ⟨⟨rfl, rfl⟩,
   (C5_flag_one_way_amended (fun _ => 0) (fun _ => 0) (fun _ _ => 0) 0 GKey.forwardK
      UKey.pKey { baseState with hasReachedCheckpoint := true, hasWon := true }).1.1 rfl,
   (C5_flag_one_way_amended (fun _ => 0) (fun _ => 0) (fun _ _ => 0) 0 GKey.forwardK
      UKey.pKey { baseState with hasReachedCheckpoint := true, hasWon := true }).1.2 rfl⟩

/-! ### Concrete trace data for the frame-step counterexamples -/

/-- Rotating the zero vector about the origin yields the zero vector,
whatever the trigonometric values. -/
theorem rot_zero (c s : ℚ) :
    rotX v3zero v3zero c s = v3zero ∧ rotY v3zero v3zero c s = v3zero ∧
    rotZ v3zero v3zero c s = v3zero := by
  refine ⟨?_, ?_, ?_⟩ <;> simp [rotX, rotY, rotZ, v3sub, v3add, v3zero]

set_option maxHeartbeats 3200000 in
set_option linter.unusedVariables false in
/-- Evaluation of `stayOnTrack` on the zero displacement for any session
whose pose matches `steerState`'s geometry (zero rotations, previous pitch
-90, track at the origin, the two-sample Y-axis curve, and the `baseState`
car box): the nearest sample is index 0, both projections coincide at
`(0, -0.08, -0.155)`, the elevation correction is 0, the banking angle
rewrite sets pitch to -90 (the probe and `vertex - point` are positively
parallel, so `vec3.angle` is 0), the rotation deltas are 0, both corner
distances stay below the collision thresholds, and no crash fires. -/
theorem stayOnTrack_steer (s : GameState)
    (h1 : s.rotation0 = 0) (h2 : s.rotation1 = 0) (h3 : s.rotation2 = 0)
    (hX : s.previousXRotation = -90) (hY : s.previousYRotation = 0)
    (htp : s.trackPosition = ⟨0, 0, 0⟩) (hcv : s.curveVerts = [0, 0, 0, 0, 1, 0])
    (hbx : s.boxMinX = -2/100) (hbX : s.boxMaxX = 2/100) (hbz : s.boxMinZ = -19/100) :
    stayOnTrack cosdX sindX angX s v3zero
      = (v3zero, { s with rotation0 := -90, previousXRotation := -90,
                          previousYRotation := 0 }) := by
  have hA : (0 : ℤ).toNat = 0 := rfl
  have hB : (3 : ℤ).toNat = 3 := rfl
  norm_num [hA, hB, stayOnTrack, getClosestPointOnCurve, searchLoop, getCurvePoint,
    curveTransform,
    getClosestCurvePointOnTrackO, getClosestCurvePointOnTrack, determinePointByDistance,
    distSqOpt, distSq, ltOpt, gtOpt, xPos, collide, getDirection, crash, rotX, rotY, rotZ,
    v3add, v3sub, v3dot, v3scaleAndAdd, v3zero, carPosition, cosdX, sindX, angX,
    h1, h2, h3, hX, hY, htp, hcv, hbx, hbX, hbz]

set_option maxHeartbeats 1600000 in
/-- C5, claim as stated is false for `hasCrashed`: in the unpaused frame
where the post-crash backward value reaches 0, `updatePosition` resets
`hasCrashed` from true back to false (lines 748-752), so the flag is not
one-way.  The trace runs the full frame at `c5CrashState`; no collision
fires there (the corner distances stay below the thresholds), so the cleared
flag survives to the end of the frame. -/
theorem C5_claim_false :
    c5CrashState.hasCrashed = true ∧
    (updatePosition cosdX sindX angX c5CrashState).hasCrashed = false := by
  have hr0 : round (-(1/40000)) (1/40000) = 0 := by
    rw [round_exact (-(1/40000)) (1/40000) 0 (by norm_num)]
    norm_num
  have h0 : (if !c5CrashState.hasReachedCheckpoint then checkReachedCheckpoint c5CrashState
      else checkReachedFinish c5CrashState) = c5CrashState := by
    norm_num [checkReachedCheckpoint, distSq, v3zero, c5CrashState, steerState, baseState]
  have h1 : accelerate c5CrashState
      = { c5CrashState with bwd := ⟨true, 0⟩, isIdle := true } := by
    norm_num [accelerate, accelerateForwardPart_eq, accelerateBackwardPart_eq, idleUpd, hr0,
      maxPower, maxReverse, reverseFactor, c5CrashState, steerState, baseState]
  have h2 : movementPhase { c5CrashState with bwd := ⟨true, 0⟩, isIdle := true } v3zero
      = (v3zero,
         { c5CrashState with
             bwd := ⟨false, 0⟩, isIdle := true, hasCrashed := false,
             keydownAttached := true }) := by
    norm_num [movementPhase, c5CrashState, steerState, baseState]
  have h4 : stayOnTrack cosdX sindX angX
      { c5CrashState with
          bwd := ⟨false, 0⟩, isIdle := true, hasCrashed := false, keydownAttached := true }
      v3zero
      = (v3zero,
         { c5CrashState with
             bwd := ⟨false, 0⟩, isIdle := true, hasCrashed := false, keydownAttached := true,
             rotation0 := -90, previousXRotation := -90, previousYRotation := 0 }) :=
    stayOnTrack_steer _ rfl rfl rfl rfl rfl rfl rfl rfl rfl rfl
  refine ⟨rfl, ?_⟩
  simp only [updatePosition, h0, h1, h2, (rot_zero _ _).1, (rot_zero _ _).2.1,
    (rot_zero _ _).2.2, h4]

/-! ### C4 -/

/-- The final `trackPosition` write of the frame touches no other field. -/
theorem tpUpd_fields (x : GameState) (v : Vec3Q) :
    ({ x with trackPosition := v }).rotation0 = x.rotation0 ∧
    ({ x with trackPosition := v }).rotation1 = x.rotation1 ∧
    ({ x with trackPosition := v }).rotation2 = x.rotation2 ∧
    ({ x with trackPosition := v }).fwd = x.fwd ∧
    ({ x with trackPosition := v }).isPaused = x.isPaused :=
  ⟨rfl, rfl, rfl, rfl, rfl⟩

/-- The flag-check phase touches no control, rotation or pause field. -/
theorem flagsPhase_keeps (s : GameState) :
    (if !s.hasReachedCheckpoint then checkReachedCheckpoint s
     else checkReachedFinish s).isPaused = s.isPaused ∧
    (if !s.hasReachedCheckpoint then checkReachedCheckpoint s
     else checkReachedFinish s).rotation1 = s.rotation1 ∧
    (if !s.hasReachedCheckpoint then checkReachedCheckpoint s
     else checkReachedFinish s).rotation2 = s.rotation2 ∧
    (if !s.hasReachedCheckpoint then checkReachedCheckpoint s
     else checkReachedFinish s).fwd = s.fwd := by
  split_ifs
  · exact ⟨(checkReachedCheckpoint_spec s).2.2.1, (checkReachedCheckpoint_spec s).2.2.2.1,
      (checkReachedCheckpoint_spec s).2.2.2.2.1, (checkReachedCheckpoint_spec s).2.2.2.2.2.1⟩
  · exact ⟨(checkReachedFinish_spec s).2.2.1, (checkReachedFinish_spec s).2.2.2.1,
      (checkReachedFinish_spec s).2.2.2.2.1, (checkReachedFinish_spec s).2.2.2.2.2.1⟩

/-- C4 amended: a paused frame applies no input-driven motion — the yaw
`rotation[1]`, the roll `rotation[2]` and the forward control value are all
unchanged, and the pause flag persists — but the frame does NOT freeze the
whole pose: `stayOnTrack` still runs while paused, reassigning the pitch
`rotation[0]` and applying its elevation/collision corrections to
`trackPosition` (the counterexample exhibits a paused frame that rewrites
the pitch). -/
theorem C4_paused_amended (cosd sind : ℚ → ℚ) (ang : Vec3Q → Vec3Q → ℚ)
    (st : GameState) (hp : st.isPaused = true) :
    (updatePosition cosd sind ang st).rotation1 = st.rotation1 ∧
    (updatePosition cosd sind ang st).rotation2 = st.rotation2 ∧
    (updatePosition cosd sind ang st).fwd.value = st.fwd.value ∧
    (updatePosition cosd sind ang st).isPaused = true := by
  have hpf : (if !st.hasReachedCheckpoint then checkReachedCheckpoint st
      else checkReachedFinish st).isPaused = true := by
    rw [(flagsPhase_keeps st).1, hp]
  have hpa : (accelerate (if !st.hasReachedCheckpoint then checkReachedCheckpoint st
      else checkReachedFinish st)).isPaused = true := by
    rw [(accelerate_keeps _).2.2.1, hpf]
  have hmv := movementPhase_paused
    (accelerate (if !st.hasReachedCheckpoint then checkReachedCheckpoint st
      else checkReachedFinish st)) v3zero hpa
  simp only [updatePosition, hmv]
  refine ⟨?_, ?_, ?_, ?_⟩
  · rw [(tpUpd_fields _ _).2.1, (stayOnTrack_keeps _ _ _ _ _).2.2.2.1,
      (accelerate_keeps _).2.2.2.2.1, (flagsPhase_keeps st).2.1]
  · rw [(tpUpd_fields _ _).2.2.1, (stayOnTrack_keeps _ _ _ _ _).2.2.2.2.1,
      (accelerate_keeps _).2.2.2.2.2.1, (flagsPhase_keeps st).2.2.1]
  · rw [(tpUpd_fields _ _).2.2.2.1, (stayOnTrack_keeps _ _ _ _ _).2.2.2.2.2.1]
    have := accelerate_paused (if !st.hasReachedCheckpoint then checkReachedCheckpoint st
      else checkReachedFinish st) hpf
    rw [this.1, (flagsPhase_keeps st).2.2.2]
  · rw [(tpUpd_fields _ _).2.2.2.2, (stayOnTrack_keeps _ _ _ _ _).2.2.1, hpa]

/-- Witness for C4's amended theorem at a concrete paused session state. -/
theorem C4_paused_amended_witness :
    { baseState with isPaused := true }.isPaused = true ∧
    ((updatePosition (fun _ => 0) (fun _ => 0) (fun _ _ => 0)
        { baseState with isPaused := true }).rotation1
      = { baseState with isPaused := true }.rotation1 ∧
     (updatePosition (fun _ => 0) (fun _ => 0) (fun _ _ => 0)
        { baseState with isPaused := true }).rotation2
      = { baseState with isPaused := true }.rotation2 ∧
     (updatePosition (fun _ => 0) (fun _ => 0) (fun _ _ => 0)
        { baseState with isPaused := true }).fwd.value
      = { baseState with isPaused := true }.fwd.value ∧
     (updatePosition (fun _ => 0) (fun _ => 0) (fun _ _ => 0)
        { baseState with isPaused := true }).isPaused = true) :=
  ⟨rfl, C4_paused_amended (fun _ => 0) (fun _ => 0) (fun _ _ => 0)
    { baseState with isPaused := true } rfl⟩

/-- C4, claim as stated is false: this paused frame rewrites the vehicle's
pitch from 0 to -90.  The update loop calls `stayOnTrack` unconditionally —
the pause guard covers only the movement block — so line 905's banking
assignment `rotation[0] = -(90 - rad2deg(angle))` still fires while paused
(here the angle is 0, as the probe and `vertex - point` are positively
parallel). -/
theorem C4_claim_false :
    c4PausedState.isPaused = true ∧
    c4PausedState.rotation0 = 0 ∧
    (updatePosition cosdX sindX angX c4PausedState).rotation0 = -90 := by
  have h0 : (if !c4PausedState.hasReachedCheckpoint then checkReachedCheckpoint c4PausedState
      else checkReachedFinish c4PausedState) = c4PausedState := by
    norm_num [checkReachedCheckpoint, distSq, v3zero, c4PausedState, steerState, baseState]
  have h1 : accelerate c4PausedState = c4PausedState := by
    norm_num [accelerate, accelerateForwardPart_eq, accelerateBackwardPart_eq, idleUpd,
      c4PausedState, steerState, baseState]
  have h2 : movementPhase c4PausedState v3zero = (v3zero, c4PausedState) :=
    movementPhase_paused _ _ rfl
  have h4 : stayOnTrack cosdX sindX angX c4PausedState v3zero
      = (v3zero,
         { c4PausedState with
             rotation0 := -90, previousXRotation := -90, previousYRotation := 0 }) :=
    stayOnTrack_steer _ rfl rfl rfl rfl rfl rfl rfl rfl rfl rfl
  refine ⟨rfl, rfl, ?_⟩
  simp only [updatePosition, h0, h1, h2, (rot_zero _ _).1, (rot_zero _ _).2.1,
    (rot_zero _ _).2.2, h4]

/-! ### C2 and C10: the nearest-sample search -/

/-- Reading sample `m < n` of a `3*n`-float polyline is in range and yields
the transformed sample. -/
theorem getCurvePoint_sample (cosd sind : ℚ → ℚ) (st : GameState) (n m : ℕ)
    (hlen : st.curveVerts.length = 3 * n) (hm : m < n) (s : ℤ) (hs : s = (3 * m : ℕ)) :
    getCurvePoint cosd sind st s = (some (samplePoint cosd sind st m), s) := by
  subst hs
  unfold getCurvePoint
  rw [if_pos]
  · rw [Int.toNat_natCast]
    rfl
  · refine ⟨Int.natCast_nonneg _, ?_⟩
    rw [hlen]
    push_cast
    omega

/-- Reading one past the last sample of a `3*n`-float polyline is out of
range and yields the NaN point. -/
theorem getCurvePoint_phantom (cosd sind : ℚ → ℚ) (st : GameState) (n : ℕ)
    (hlen : st.curveVerts.length = 3 * n) (s : ℤ) (hs : s = (3 * n : ℕ)) :
    getCurvePoint cosd sind st s = (none, s) := by
  subst hs
  unfold getCurvePoint
  rw [if_neg]
  rw [hlen]
  push_cast
  omega

/-- Main loop invariant of the nearest-sample search: entering the loop head
before iteration `t` (with `c` iterations left, enough fuel, and a running
minimum of the first `t` samples), the loop ends with the first-encountered
minimum of all `n` samples and appends exactly the start indices
`3*t, …, 3*n` to the instrumented call list. -/
theorem searchLoop_spec (cosd sind : ℚ → ℚ) (st : GameState) (n : ℕ)
    (hlen : st.curveVerts.length = 3 * n) :
    ∀ (c t fuel : ℕ) (best : SearchBest) (calls : List ℤ) (i j : ℤ),
      i = 3 * (t : ℤ) - 3 → j = 3 * (t : ℤ) → t + c = n + 1 → 1 ≤ t → c ≤ fuel →
      FirstMin cosd sind st n t best →
      FirstMin cosd sind st n (n + 1) (searchLoop cosd sind st fuel i j best calls).1 ∧
      (searchLoop cosd sind st fuel i j best calls).2
        = calls ++ (List.range c).map (fun r => ((3 * (t + r) : ℕ) : ℤ)) := by
  intro c
  induction c with
  | zero =>
    intro t fuel best calls i j hi hj htc ht1 hcf hfm
    have ht : t = n + 1 := by omega
    have hstop : ¬ i < (st.curveVerts.length : ℤ) := by
      rw [hi, hlen, ht]
      push_cast
      omega
    have hout : searchLoop cosd sind st fuel i j best calls = (best, calls) := by
      cases fuel with
      | zero => rfl
      | succ f => simp only [searchLoop, if_neg hstop]
    rw [hout]
    subst ht
    exact ⟨hfm, by simp⟩
  | succ c ih =>
    intro t fuel best calls i j hi hj htc ht1 hcf hfm
    have htn : t ≤ n := by omega
    cases fuel with
    | zero => omega
    | succ f =>
      have hgo : i < (st.curveVerts.length : ℤ) := by
        rw [hi, hlen]
        push_cast
        omega
      simp only [searchLoop, if_pos hgo]
      by_cases htlt : t < n
      · rw [getCurvePoint_sample cosd sind st n t hlen htlt j (by rw [hj]; push_cast; ring)]
        obtain ⟨m, hmt, hmn, h3, h4, h5, h6, h7⟩ := hfm
        have hd : distSqOpt carPosition (some (samplePoint cosd sind st t))
            = some (sampleD cosd sind st t) := rfl
        rw [hd, h5]
        by_cases hlt : sampleD cosd sind st t < sampleD cosd sind st m
        · rw [if_pos (by simp [ltOpt, hlt])]
          have hfm' : FirstMin cosd sind st n (t + 1)
              ⟨some (samplePoint cosd sind st t), some (sampleD cosd sind st t), j⟩ := by
            refine ⟨t, by omega, htlt, by rw [hj]; push_cast; ring, rfl, rfl, ?_, ?_⟩
            · intro m' hm't hm'n
              rcases Nat.lt_succ_iff_lt_or_eq.mp hm't with h | h
              · exact le_of_lt (lt_of_lt_of_le hlt (h6 m' h hm'n))
              · subst h
                exact le_rfl
            · intro m' hm'
              exact lt_of_lt_of_le hlt (h6 m' (by omega) (by omega))
          have := ih (t + 1) f ⟨some (samplePoint cosd sind st t),
              some (sampleD cosd sind st t), j⟩ (calls ++ [j]) j (j + 3)
            (by rw [hj]; push_cast; ring) (by rw [hj]; push_cast; ring)
            (by omega) (by omega) (by omega) hfm'
          refine ⟨this.1, ?_⟩
          rw [this.2, List.append_assoc, List.singleton_append, List.range_succ_eq_map,
            List.map_cons, List.map_map]
          congr 1
          congr 1
          all_goals
            first
              | (rw [hj]; push_cast; ring)
              | (apply List.map_congr_left; intro r hr; simp only [Function.comp_apply];
                 congr 1; omega)
        · rw [if_neg (by simp [ltOpt]; linarith [not_lt.mp hlt])]
          have hfm' : FirstMin cosd sind st n (t + 1) best := by
            refine ⟨m, by omega, hmn, h3, h4, h5, ?_, h7⟩
            intro m' hm't hm'n
            rcases Nat.lt_succ_iff_lt_or_eq.mp hm't with h | h
            · exact h6 m' h hm'n
            · subst h
              exact not_lt.mp hlt
          have := ih (t + 1) f best (calls ++ [j]) j (j + 3)
            (by rw [hj]; push_cast; ring) (by rw [hj]; push_cast; ring)
            (by omega) (by omega) (by omega) hfm'
          refine ⟨this.1, ?_⟩
          rw [this.2, List.append_assoc, List.singleton_append, List.range_succ_eq_map,
            List.map_cons, List.map_map]
          congr 1
          congr 1
          all_goals
            first
              | (rw [hj]; push_cast; ring)
              | (apply List.map_congr_left; intro r hr; simp only [Function.comp_apply];
                 congr 1; omega)
      · have htn' : t = n := by omega
        rw [getCurvePoint_phantom cosd sind st n hlen j (by rw [hj, htn']; push_cast; ring)]
        have hd : distSqOpt carPosition (none : Option Vec3Q) = none := rfl
        rw [hd]
        rw [if_neg (by simp [ltOpt])]
        have hfm' : FirstMin cosd sind st n (t + 1) best := by
          obtain ⟨m, hmt, hmn, h3, h4, h5, h6, h7⟩ := hfm
          exact ⟨m, by omega, hmn, h3, h4, h5,
            fun m' _ hm'n => h6 m' (by omega) hm'n, h7⟩
        have := ih (t + 1) f best (calls ++ [j]) j (j + 3)
          (by rw [hj]; push_cast; ring) (by rw [hj]; push_cast; ring)
          (by omega) (by omega) (by omega) hfm'
        refine ⟨this.1, ?_⟩
        rw [this.2, List.append_assoc, List.singleton_append, List.range_succ_eq_map,
          List.map_cons, List.map_map]
        congr 1
        congr 1
        all_goals
          first
            | (rw [hj]; push_cast; ring)
            | (apply List.map_congr_left; intro r hr; simp only [Function.comp_apply];
               congr 1; omega)

/-- Top-level specification of the nearest-sample search on a polyline of
`n ≥ 1` samples: the result is the first-encountered minimum-distance
transformed sample, and the search calls `getCurvePoint` exactly at the
start indices `0, 3, …, 3*n` (the last one past the end). -/
theorem getClosestPointOnCurve_spec (cosd sind : ℚ → ℚ) (st : GameState) (n : ℕ)
    (hlen : st.curveVerts.length = 3 * n) (hn : 1 ≤ n) :
    FirstMin cosd sind st n (n + 1) (getClosestPointOnCurve cosd sind st).1 ∧
    (getClosestPointOnCurve cosd sind st).2
      = (List.range (n + 1)).map (fun r => ((3 * r : ℕ) : ℤ)) := by
  unfold getClosestPointOnCurve
  rw [getCurvePoint_sample cosd sind st n 0 hlen hn (0 : ℤ) (by norm_num)]
  have hd : distSqOpt carPosition (some (samplePoint cosd sind st 0))
      = some (sampleD cosd sind st 0) := rfl
  simp only [hd]
  have hfm0 : FirstMin cosd sind st n 1
      ⟨some (samplePoint cosd sind st 0), some (sampleD cosd sind st 0), 0⟩ := by
    refine ⟨0, by omega, hn, by norm_num, rfl, rfl, ?_, by omega⟩
    intro m' hm' _
    interval_cases m'
    exact le_rfl
  have := searchLoop_spec cosd sind st n hlen n 1 (st.curveVerts.length + 1)
    ⟨some (samplePoint cosd sind st 0), some (sampleD cosd sind st 0), 0⟩ [0] 0 3
    (by norm_num) (by norm_num) (by omega) le_rfl (by rw [hlen]; omega) hfm0
  refine ⟨this.1, ?_⟩
  rw [this.2, List.singleton_append, List.range_succ_eq_map, List.map_cons, List.map_map]
  congr 1
  all_goals
    first
      | (apply List.map_congr_left; intro r hr; simp only [Function.comp_apply];
         push_cast; ring)
      | norm_num

/-- C2: for every polyline of `n ≥ 2` samples and every session pose, the
nearest-sample search returns a transformed sample whose (squared) distance
to the vehicle position `carPosition` is at most that of every other
transformed sample, and — when several are equidistant at the minimum — the
first-encountered one: every earlier sample is strictly farther. -/
theorem C2_nearest_sample (cosd sind : ℚ → ℚ) (st : GameState) (n : ℕ)
    (hlen : st.curveVerts.length = 3 * n) (hn : 2 ≤ n) :
    ∃ m : ℕ, m < n ∧
      (getClosestPointOnCurve cosd sind st).1.index = ((3 * m : ℕ) : ℤ) ∧
      (getClosestPointOnCurve cosd sind st).1.vertex = some (samplePoint cosd sind st m) ∧
      (∀ m' : ℕ, m' < n → sampleD cosd sind st m ≤ sampleD cosd sind st m') ∧
      (∀ m' : ℕ, m' < m → sampleD cosd sind st m < sampleD cosd sind st m') := by
  obtain ⟨hfm, -⟩ := getClosestPointOnCurve_spec cosd sind st n hlen (by omega)
  obtain ⟨m, hmt, hmn, h3, h4, h5, h6, h7⟩ := hfm
  exact ⟨m, hmn, h3, h4, fun m' hm' => h6 m' (by omega) hm', h7⟩

/-- Witness for C2 at the concrete 2-sample session `steerState`. -/
theorem C2_nearest_sample_witness :
    steerState.curveVerts.length = 3 * 2 ∧ 2 ≤ 2 ∧
    (∃ m : ℕ, m < 2 ∧
      (getClosestPointOnCurve cosdX sindX steerState).1.index = ((3 * m : ℕ) : ℤ) ∧
      (getClosestPointOnCurve cosdX sindX steerState).1.vertex
        = some (samplePoint cosdX sindX steerState m) ∧
      (∀ m' : ℕ, m' < 2 →
        sampleD cosdX sindX steerState m ≤ sampleD cosdX sindX steerState m') ∧
      (∀ m' : ℕ, m' < m →
        sampleD cosdX sindX steerState m < sampleD cosdX sindX steerState m')) :=
  ⟨rfl, le_rfl, C2_nearest_sample cosdX sindX steerState 2 rfl le_rfl⟩

/-- C10 amended: during one nearest-sample search over a polyline of
`n ≥ 2` samples, the `getCurvePoint` start indices are exactly
`0, 3, …, 3*n`: every call except the final one satisfies
`s + 3 ≤ curve_verts.length`, but the loop's final iteration always passes
`s = curve_verts.length` — one past the end (its empty `subarray` read
yields a NaN distance which never updates the minimum). -/
theorem C10_search_calls_amended (cosd sind : ℚ → ℚ) (st : GameState) (n : ℕ)
    (hlen : st.curveVerts.length = 3 * n) (hn : 2 ≤ n) :
    (getClosestPointOnCurve cosd sind st).2
      = (List.range (n + 1)).map (fun r => ((3 * r : ℕ) : ℤ)) ∧
    (∀ s ∈ (getClosestPointOnCurve cosd sind st).2,
      s + 3 ≤ (st.curveVerts.length : ℤ) ∨ s = (st.curveVerts.length : ℤ)) ∧
    ((st.curveVerts.length : ℤ) ∈ (getClosestPointOnCurve cosd sind st).2) := by
  obtain ⟨-, hcalls⟩ := getClosestPointOnCurve_spec cosd sind st n hlen (by omega)
  refine ⟨hcalls, ?_, ?_⟩
  · intro s hs
    rw [hcalls] at hs
    simp only [List.mem_map, List.mem_range] at hs
    obtain ⟨r, hr, rfl⟩ := hs
    rw [hlen]
    rcases Nat.lt_succ_iff_lt_or_eq.mp hr with h | h
    · left
      push_cast
      omega
    · right
      subst h
      rfl
  · rw [hcalls, hlen]
    simp only [List.mem_map, List.mem_range]
    exact ⟨n, by omega, rfl⟩

/-- Witness for C10's amended theorem at the concrete 2-sample session
`steerState`. -/
theorem C10_search_calls_amended_witness :
    steerState.curveVerts.length = 3 * 2 ∧ 2 ≤ 2 ∧
    ((steerState.curveVerts.length : ℤ) ∈ (getClosestPointOnCurve cosdX sindX steerState).2) :=
  ⟨rfl, le_rfl,
   (C10_search_calls_amended cosdX sindX steerState 2 rfl le_rfl).2.2⟩

/-- C10, claim as stated is false: at the concrete 2-sample session
`steerState` (`curve_verts.length = 6`), the nearest-sample search issues a
`getCurvePoint` call with start index 6, and `6 + 3 ≤ 6` fails — the search
does read past the end of `curve_verts` (the out-of-range `subarray` is
empty and the resulting NaN distance merely never wins the comparison). -/
theorem C10_claim_false :
    steerState.curveVerts.length = 6 ∧
    (6 : ℤ) ∈ (getClosestPointOnCurve cosdX sindX steerState).2 ∧
    ¬((6 : ℤ) + 3 ≤ (steerState.curveVerts.length : ℤ)) := by
  obtain ⟨-, hcalls⟩ := getClosestPointOnCurve_spec cosdX sindX steerState 2 rfl (by omega)
  refine ⟨rfl, ?_, ?_⟩
  · rw [hcalls]
    simp only [List.mem_map, List.mem_range]
    exact ⟨2, by omega, by norm_num⟩
  · rw [show steerState.curveVerts.length = 6 from rfl]
    norm_num

/-! ### C3 -/

/-- C3 divergence at the failing input: on the curve sample `(0, 1, 0)` with
`rotation = (90, 0, 0)`, the source's transform leaves the world-space y
coordinate at 1 — its `rotateY`/`rotateZ` calls re-read the untransformed
point, so the pitch rotation is discarded — while the claimed
X-then-Y-then-Z composition would rotate the point to `(0, 0, 1)` and give
world-space y = 0 (the y coordinate is unaffected by the later Y rotations,
so this comparison is independent of the 85-degree cosine/sine). -/
theorem C3_transform_bug :
    (curveTransform cosdX sindX c3State ⟨0, 1, 0⟩).y = 1 ∧
    (claimedCurveTransform cosdX sindX c3State ⟨0, 1, 0⟩).y = 0 ∧
    (curveTransform cosdX sindX c3State ⟨0, 1, 0⟩).y
      ≠ (claimedCurveTransform cosdX sindX c3State ⟨0, 1, 0⟩).y := by
  refine ⟨?_, ?_, ?_⟩ <;>
    norm_num [curveTransform, claimedCurveTransform, rotX, rotY, rotZ, v3add, v3sub, v3zero,
      carPosition, cosdX, sindX, c3State, baseState]

end Racing
